import Mathlib

/-!
# pingme: client-side UI behaviour

A shallow embedding of `static/js/theme.js` (class `ThemeManager`) and
`static/js/main.js` (class `VendorApp`).

* JavaScript strings are Lean strings, `null`/`undefined` results are `Option`.
* The browser objects the scripts talk to (`localStorage`, the document, the
  `matchMedia` query, the timer queue) are explicit fields of a state record;
  every method is a function from state to state.
* Time is virtual: a timer set at time `t` with delay `d` is due at `t + d'`,
  where `d'` is `d` read as a signed 32-bit integer (0 when that is negative),
  and due timers run in order of due time, earlier-created first on a tie.
-/

set_option autoImplicit false

/-! ## theme.js -/

namespace ThemeManager

/-- The `localStorage` object as theme.js sees it: the item stored under the key
`vendorapp-theme`, and whether `getItem` / `setItem` raise. -/
structure Storage where
  item : Option String
  getItemThrows : Bool
  setItemThrows : Bool
deriving DecidableEq, Repr

/-- The element with id `theme-toggle`: the `className` of its first `i`
descendant (`none` when `querySelector` finds no such child) and its
`aria-label` attribute. -/
structure ToggleButton where
  icon : Option String
  ariaLabel : Option String
deriving DecidableEq, Repr

/-- What the page offers before the controller is constructed. -/
structure Page where
  storage : Storage
  dataTheme : Option String
  toggleButton : Option ToggleButton
  prefersDark : Bool
deriving DecidableEq, Repr

/-- A constructed `ThemeManager` together with the browser state it acts on.
`clickListeners` counts the click handlers registered on the toggle button,
`changeListeners` the handlers registered on the colour-scheme media query, and
`dispatched` lists the `detail.theme` of every `themeChanged` event sent to
`window`, oldest first. -/
structure State where
  storage : Storage
  dataTheme : Option String
  toggleButton : Option ToggleButton
  prefersDark : Bool
  currentTheme : String
  clickListeners : Nat
  changeListeners : Nat
  dispatched : List String
deriving DecidableEq, Repr

/-- JavaScript truthiness of the result of `getItem`: `null` and the empty
string are falsy. -/
def truthy : Option String → Bool
  | none => false
  | some v => v != ""

/-- Source `getStoredTheme` (lines 15-22): the stored item, `null` when the
access raises (the `console.warn` is not modelled). -/
def getStoredTheme (st : Storage) : Option String :=
  if st.getItemThrows then none else st.item

/-- Source `setStoredTheme` (lines 24-30): a write that raises is swallowed. -/
def setStoredTheme (theme : String) (st : Storage) : Storage :=
  if st.setItemThrows then st else { st with item := some theme }

/-- Source `updateToggleButton` (lines 61-75). -/
def updateToggleButton (theme : String) (s : State) : State :=
  match s.toggleButton with
  | none => s
  | some b =>
    match b.icon with
    | none => s
    | some _ =>
      if theme = "dark-blue" then
        { s with toggleButton := some ⟨some "fas fa-moon", some "Switch to light theme"⟩ }
      else
        { s with toggleButton := some ⟨some "fas fa-sun", some "Switch to dark theme"⟩ }

/-- Source `applyTheme` (lines 32-37). -/
def applyTheme (theme : String) (s : State) : State :=
  let s1 := { s with dataTheme := some theme }
  let s2 := { s1 with currentTheme := theme }
  let s3 := { s2 with storage := setStoredTheme theme s2.storage }
  updateToggleButton theme s3

/-- Source `toggleTheme` (lines 51-59). -/
def toggleTheme (s : State) : State :=
  let newTheme := if s.currentTheme = "dark-blue" then "light" else "dark-blue"
  let s1 := applyTheme newTheme s
  { s1 with dispatched := s1.dispatched ++ [newTheme] }

/-- Source `initializeThemeToggle` (lines 39-49). -/
def initializeThemeToggle (s : State) : State :=
  let s1 :=
    match s.toggleButton with
    | some _ => { s with clickListeners := s.clickListeners + 1 }
    | none => s
  updateToggleButton s1.currentTheme s1

/-- The handler registered on the media query (lines 87-92), run with the
event's `matches`. -/
def onSchemeChange (eMatches : Bool) (s : State) : State :=
  if !truthy (getStoredTheme s.storage) then
    let newSystemTheme := if eMatches then "dark-blue" else "light"
    applyTheme newSystemTheme s
  else s

/-- Source `initializeSystemPreference` (lines 77-93). -/
def initializeSystemPreference (s : State) : State :=
  if truthy (getStoredTheme s.storage) then s
  else
    let prefersDark := s.prefersDark
    let systemTheme := if prefersDark then "dark-blue" else "light"
    let s1 := applyTheme systemTheme s
    { s1 with changeListeners := s1.changeListeners + 1 }

/-- Source `init` (lines 9-13). -/
def init (s : State) : State :=
  let s1 := applyTheme s.currentTheme s
  let s2 := initializeThemeToggle s1
  initializeSystemPreference s2

/-- Source `constructor` (lines 4-7): `getStoredTheme() || 'dark-blue'`, then
`init()`. -/
def construct (p : Page) : State :=
  let stored := getStoredTheme p.storage
  let currentTheme := if truthy stored then stored.getD "dark-blue" else "dark-blue"
  init
    { storage := p.storage, dataTheme := p.dataTheme, toggleButton := p.toggleButton,
      prefersDark := p.prefersDark, currentTheme := currentTheme,
      clickListeners := 0, changeListeners := 0, dispatched := [] }

/-- Source `getCurrentTheme` (lines 96-98). -/
def getCurrentTheme (s : State) : String := s.currentTheme

/-- Source `setTheme` (lines 101-105). -/
def setTheme (theme : String) (s : State) : State :=
  if ["dark-blue", "light"].contains theme then applyTheme theme s else s

/-- The environment's colour-scheme preference changes: the media query now
reports `eMatches` and every registered change handler runs once. -/
def schemeChange (eMatches : Bool) (s : State) : State :=
  Nat.iterate (onSchemeChange eMatches) s.changeListeners { s with prefersDark := eMatches }

/-- A click on the toggle button runs every registered click handler. -/
def clickToggle (s : State) : State :=
  Nat.iterate toggleTheme s.clickListeners s

/-- Storage whose reads and writes both succeed. -/
def workingStorage (item : Option String) : Storage :=
  { item := item, getItemThrows := false, setItemThrows := false }

/-- A page whose storage works and holds `item`. -/
def workingPage (item dataTheme : Option String) (toggleButton : Option ToggleButton)
    (prefersDark : Bool) : Page :=
  { storage := workingStorage item, dataTheme := dataTheme, toggleButton := toggleButton,
    prefersDark := prefersDark }

/-- The current theme is one of the two values the controller itself writes. -/
def ValidTheme (s : State) : Prop := s.currentTheme = "dark-blue" ∨ s.currentTheme = "light"

instance (s : State) : Decidable (ValidTheme s) := by
  unfold ValidTheme; exact inferInstance

/-- The calls a page script can make on a constructed controller, and the
events the browser can deliver to it. -/
inductive Action where
  | toggleTheme
  | setTheme (theme : String)
  | schemeChange (eMatches : Bool)
  | clickToggle
deriving DecidableEq, Repr

/-- Run one action. -/
def act : Action → State → State
  | .toggleTheme, s => toggleTheme s
  | .setTheme t, s => setTheme t s
  | .schemeChange m, s => schemeChange m s
  | .clickToggle, s => clickToggle s

/-- Run a sequence of actions, first to last. -/
def actAll (as : List Action) (s : State) : State :=
  as.foldl (fun acc a => act a acc) s

end ThemeManager

/-! ## The browser timer queue -/

/-- A pending `setTimeout` entry: its id, the virtual time at which it is due
and the callback to run. -/
structure Timer (τ : Type) where
  id : Nat
  due : Nat
  task : τ
deriving DecidableEq, Repr

/-- The timer queue of the page: the current virtual time, the next timer id,
and the pending timers ordered by due time (earlier-created first on a tie). -/
structure TimerQueue (τ : Type) where
  now : Nat
  nextId : Nat
  pending : List (Timer τ)
deriving DecidableEq, Repr

namespace TimerQueue

variable {τ : Type}

/-- A fresh queue at time 0. -/
def empty : TimerQueue τ := { now := 0, nextId := 1, pending := [] }

/-- Insert behind every pending timer that is due no later. -/
def insertTimer (t : Timer τ) : List (Timer τ) → List (Timer τ)
  | [] => [t]
  | u :: us => if t.due < u.due then t :: u :: us else u :: insertTimer t us

/-- The delay a timer really gets. The `timeout` argument of `setTimeout` is a
32-bit signed integer (`long`): the number passed is reduced modulo `2^32`, a
result of `2^31` or more stands for a negative number, and a negative timeout
counts as 0. So a delay below `2^31` is kept, and a delay from `2^31` up to
`2^32 - 1` makes the timer due at once. -/
def timeoutDelay (delay : Nat) : Nat :=
  let m := delay % 4294967296
  if m < 2147483648 then m else 0

/-- Browser `setTimeout(task, delay)`: returns the new queue and the timer id. -/
def setTimeout (task : τ) (delay : Nat) (q : TimerQueue τ) : TimerQueue τ × Nat :=
  ({ q with nextId := q.nextId + 1,
            pending := insertTimer ⟨q.nextId, q.now + timeoutDelay delay, task⟩ q.pending },
    q.nextId)

/-- Browser `clearTimeout(id)`; `none` is `undefined`, which clears nothing. -/
def clearTimeout (id : Option Nat) (q : TimerQueue τ) : TimerQueue τ :=
  match id with
  | none => q
  | some i => { q with pending := q.pending.filter (fun t => t.id != i) }

end TimerQueue

/-! ## main.js -/

namespace VendorApp

/-! ### formatPhoneNumber -/

/-- The regular expression `\D`: any character that is not one of `0`-`9`. -/
def isNonDigit (c : Char) : Bool := !c.isDigit

/-- Source `replace(/\D/g, '')` on the characters of a string: every match is
replaced by the empty string. -/
def replaceNonDigits : List Char → List Char
  | [] => []
  | c :: cs => if isNonDigit c then replaceNonDigits cs else c :: replaceNonDigits cs

/-- JavaScript `startsWith` on character lists. -/
def startsWith : List Char → List Char → Bool
  | _, [] => true
  | [], _ :: _ => false
  | c :: cs, p :: ps => c == p && startsWith cs ps

/-- Source `formatPhoneNumber` (lines 158-165) on a string argument. -/
def formatPhoneNumber (phone : String) : String :=
  if phone = "" then ""
  else
    let cleaned := replaceNonDigits phone.data
    if cleaned.length == 12 && startsWith cleaned "255".data then
      String.mk ('+' :: cleaned)
    else phone

/-- The reference definition of the phone format, following the specification's
words: empty input gives the empty string; with `d` the digits of `p`, the
result is `+d` when `d` has exactly 12 digits and begins with 255, else `p`. -/
def formatPhoneNumberSpec (p : String) : String :=
  if p.length = 0 then ""
  else
    let d := p.toList.filter Char.isDigit
    if d.length = 12 ∧ d.take 3 = ['2', '5', '5'] then "+" ++ String.mk d else p

/-! ### apiCall -/

/-- A JavaScript primitive value. -/
inductive JsPrim where
  | undefined
  | null
  | bool (b : Bool)
  | number (n : Int)
  | string (s : String)
deriving DecidableEq, Repr

/-- A value that can be thrown or be the reason of a rejected promise: a
primitive, or an object given by the value of its `message` property
(`undefined` when it has none). An `Error` is an object whose `message` is a
string. -/
inductive Thrown where
  | prim (v : JsPrim)
  | object (message : JsPrim)
deriving DecidableEq, Repr

/-- The value of `new Error(msg)` and of the built-in `TypeError`s. -/
def Thrown.error (msg : String) : Thrown := .object (.string msg)

/-- JavaScript `error.message`: raises a `TypeError` on `null` and `undefined`,
is `undefined` on the other primitives, and is the property of an object. -/
def Thrown.message : Thrown → Except Thrown JsPrim
  | .prim .undefined => .error (Thrown.error "Cannot read properties of undefined (reading message)")
  | .prim .null => .error (Thrown.error "Cannot read properties of null (reading message)")
  | .prim _ => .ok .undefined
  | .object m => .ok m

/-- An object used as a string-keyed record, in property order. -/
abbrev Props := List (String × String)

/-- Object spread `...src` into `target`: an existing key keeps its place and
takes the new value, a new key is appended. -/
def spread (target src : Props) : Props :=
  src.foldl
    (fun acc kv =>
      if acc.any (fun e => e.1 == kv.1) then
        acc.map (fun e => if e.1 == kv.1 then (e.1, kv.2) else e)
      else acc ++ [kv])
    target

/-- A caller-supplied options object: its `headers` property (`none` when
absent) and its other own properties. -/
structure RequestInit where
  headers : Option Props
  others : Props
deriving DecidableEq, Repr

/-- The second argument of `apiCall` as passed by the caller. -/
inductive OptionsArg where
  | undefined
  | null
  | object (o : RequestInit)
deriving DecidableEq, Repr

/-- The options object handed to `fetch`. -/
structure MergedOptions where
  headers : Props
  others : Props
deriving DecidableEq, Repr

/-- A `Response`: its status and the outcome of `response.json()`. -/
structure Response (δ : Type) where
  status : Nat
  json : Except Thrown δ

/-- The getter `response.ok`: the status is in the range 200-299. -/
def Response.ok {δ : Type} (r : Response δ) : Bool := 200 ≤ r.status && r.status ≤ 299

/-- What a call of `fetch` does: the promise rejects (or the call throws), or
it resolves with a response. -/
inductive FetchOutcome (δ : Type) where
  | rejects (reason : Thrown)
  | resolves (response : Response δ)

/-- The object `apiCall` returns: `{ success: true, data }` or
`{ success: false, error }`. -/
inductive ApiResult (δ : Type) where
  | success (data : δ)
  | failure (error : JsPrim)
deriving DecidableEq, Repr

/-- How the promise returned by `apiCall` settles. -/
inductive Settled (δ : Type) where
  | resolved (value : ApiResult δ)
  | rejected (reason : Thrown)
deriving DecidableEq, Repr

/-- The `defaultOptions.headers` of lines 117-122. -/
def defaultHeaders : Props :=
  [("Content-Type", "application/json"), ("X-Requested-With", "XMLHttpRequest")]

/-- The `catch (error)` block of `apiCall` (lines 142-145); reading
`error.message` can itself raise. -/
def apiCallCatch {δ : Type} (error : Thrown) : Settled δ :=
  match error.message with
  | .error e => .rejected e
  | .ok m => .resolved (.failure m)

/-- The parameter `options` inside the function body: the default `= {}`
replaces `undefined` only. `none` stands for `null`. -/
def OptionsArg.withDefault : OptionsArg → Option RequestInit
  | .undefined => some { headers := none, others := [] }
  | .null => none
  | .object o => some o

/-- The object `mergedOptions` of lines 124-131. -/
def mergeOptions (o : RequestInit) : MergedOptions :=
  { others := o.others, headers := spread (spread [] defaultHeaders) (o.headers.getD []) }

/-- Source `apiCall` (lines 116-146). `options.headers` is read while building
`mergedOptions`, before the `try` block, and raises on `null`. -/
def apiCall {δ : Type} (fetch : String → MergedOptions → FetchOutcome δ)
    (url : String) (options : OptionsArg) : Settled δ :=
  match options.withDefault with
  | none => .rejected (Thrown.error "Cannot read properties of null (reading headers)")
  | some o =>
    let mergedOptions := mergeOptions o
    match fetch url mergedOptions with
    | .rejects reason => apiCallCatch reason
    | .resolves response =>
      if !response.ok then
        apiCallCatch (Thrown.error ("HTTP error! status: " ++ toString response.status))
      else
        match response.json with
        | .error e => apiCallCatch e
        | .ok data => .resolved (.success data)

/-- The options object `fetch` receives for a given second argument (for
`null` no call of `fetch` is made). -/
def fetchOptions (options : OptionsArg) : MergedOptions :=
  mergeOptions (options.withDefault.getD { headers := none, others := [] })

/-- A `fetch` that always resolves with the given status and parsed body. -/
def fetchResolving (status : Nat) (body : String) : String → MergedOptions → FetchOutcome String :=
  fun _ _ => .resolves { status := status, json := .ok body }

/-- A `fetch` that always rejects with the given reason. -/
def fetchRejecting (reason : Thrown) : String → MergedOptions → FetchOutcome String :=
  fun _ _ => .rejects reason

/-! ### debounce -/

/-- The closure returned by `debounce(func, wait)` with the state it captures:
the variable `timeout`, the timer queue it schedules on (the task of a timer is
the argument list captured by `later`), and the calls of `func` made so far
with their times. -/
structure Debounced (α : Type) where
  wait : Nat
  timeout : Option Nat
  queue : TimerQueue α
  calls : List (Nat × α)

/-- Source `debounce` (lines 168-178): `timeout` starts undefined. -/
def debounce {α : Type} (wait : Nat) : Debounced α :=
  { wait := wait, timeout := none, queue := TimerQueue.empty, calls := [] }

/-- The inner callback `later` (lines 171-174) for a captured argument list. -/
def later {α : Type} (args : α) (d : Debounced α) : Debounced α :=
  let q := d.queue.clearTimeout d.timeout
  { d with queue := q, calls := d.calls ++ [(q.now, args)] }

/-- Source `executedFunction` (lines 170-177). -/
def executedFunction {α : Type} (args : α) (d : Debounced α) : Debounced α :=
  let q := d.queue.clearTimeout d.timeout
  let (q, id) := q.setTimeout args d.wait
  { d with queue := q, timeout := some id }

/-- Run the pending timers that are due by `limit` (all of them for `none`), in
order; `fuel` bounds the number of callbacks run. -/
def Debounced.runDue {α : Type} : Nat → Option Nat → Debounced α → Debounced α
  | 0, _, d => d
  | fuel + 1, limit, d =>
    match d.queue.pending with
    | [] => d
    | tm :: rest =>
      if limit.all (fun l => tm.due ≤ l) then
        Debounced.runDue fuel limit
          (later tm.task { d with queue := { d.queue with now := tm.due, pending := rest } })
      else d

/-- Let `dt` milliseconds pass: the timers due in that span run, then the clock
stands at the new time. A callback of `later` sets no timer, so the number of
pending timers is fuel enough. -/
def Debounced.elapse {α : Type} (dt : Nat) (d : Debounced α) : Debounced α :=
  let d1 := Debounced.runDue d.queue.pending.length (some (d.queue.now + dt)) d
  { d1 with queue := { d1.queue with now := d.queue.now + dt } }

/-- Invoke the wrapped function once per entry, each `gap` milliseconds after
the previous invocation (the first one `gap` after the wrapper was made). -/
def Debounced.invokeAll {α : Type} : List (Nat × α) → Debounced α → Debounced α
  | [], d => d
  | (gap, args) :: rest, d => Debounced.invokeAll rest (executedFunction args (d.elapse gap))

/-- Let every pending timer run. -/
def Debounced.settle {α : Type} (d : Debounced α) : Debounced α :=
  Debounced.runDue d.queue.pending.length none d

/-- The state of a debounced function that has exactly one timer pending:
set at time `T` for the arguments `a`, and nothing called yet. -/
def armed {α : Type} (w T : Nat) (a : α) (id n : Nat) : Debounced α :=
  { wait := w, timeout := some id,
    queue := { now := T, nextId := n, pending := [⟨id, T + w, a⟩] }, calls := [] }

/-! ### The page controller -/

/-- The element with id `loading-spinner`: whether its class list contains
`hidden`, and whether it still has a parent node. -/
structure Spinner where
  hidden : Bool
  attached : Bool
deriving DecidableEq, Repr

/-- The elements `nav-toggle` and `nav-menu`: whether the class list contains
`active`. -/
structure NavElement where
  active : Bool
deriving DecidableEq, Repr

/-- An element of class `flash-message`: whether it contains a `.flash-close`
button, its `style.animation`, and whether it still has a parent node. -/
structure FlashMessage where
  closeBtn : Bool
  animation : Option String
  attached : Bool
deriving DecidableEq, Repr

/-- The part of the document and window that main.js reads and writes.
`performance` is `none` when `window` has no `performance` property, and
otherwise the value `loadEventEnd - navigationStart` that the load handler will
read. -/
structure Document where
  spinner : Option Spinner
  navToggle : Option NavElement
  navMenu : Option NavElement
  flashMessages : List FlashMessage
  performance : Option Int
deriving DecidableEq, Repr

/-- The timer callbacks main.js creates. -/
inductive Task where
  /-- Lines 22-29, set by the load handler with delay 500. -/
  | loadHide
  /-- Lines 26-28, delay 300. -/
  | spinnerRemove
  /-- Lines 33-35, delay 3000. -/
  | fallbackHide
  /-- Lines 75-77 and 85-87 for message `i`, delay 300. -/
  | flashRemove (i : Nat)
  /-- Lines 82-89 for message `i`, delay 5000. -/
  | flashExpire (i : Nat)
deriving DecidableEq, Repr

/-- The event listeners main.js registers. -/
inductive Listener where
  /-- Lines 21-30, on the window load event. -/
  | loadSpinner
  /-- Lines 43-46, click on `nav-toggle`. -/
  | navToggleClick
  /-- Lines 49-54, click anywhere in the document. -/
  | documentClick
  /-- Lines 57-62, window resize. -/
  | resize
  /-- Lines 73-78, click on the close button of message `i`. -/
  | flashClose (i : Nat)
  /-- Lines 101-111, on the window load event. -/
  | loadPerformance
deriving DecidableEq, Repr

/-- An observable step of the scripts, recorded with the time it happens. -/
inductive Call where
  /-- `spinner.classList.add('hidden')`. -/
  | spinnerHide
  /-- `spinner.remove()`; `detached` tells whether the element had a parent. -/
  | spinnerRemove (detached : Bool)
  /-- `message.style.animation = 'slideOut 0.3s ease forwards'` on message `i`. -/
  | flashAnimation (i : Nat)
  /-- `setTimeout(() => message.remove(), 300)` for message `i`. -/
  | flashSetTimeout (i : Nat)
  /-- `message.remove()` on message `i`; `detached` as above. -/
  | flashRemove (i : Nat) (detached : Bool)
  /-- `console.log` of the load time. -/
  | consoleLog (loadTime : Int)
  /-- `console.warn` of a slow load. -/
  | consoleWarn (loadTime : Int)
  /-- A callback ended with an uncaught error. -/
  | uncaught (error : String)
deriving DecidableEq, Repr

/-- A page on which `VendorApp` runs: the document, the timer queue, the
registered listeners in registration order, and the record of calls so far. -/
structure World where
  doc : Document
  queue : TimerQueue Task
  listeners : List Listener
  trace : List (Nat × Call)
deriving DecidableEq, Repr

/-- Append a call to the record, stamped with the current time. -/
def World.record (c : Call) (w : World) : World :=
  { w with trace := w.trace ++ [(w.queue.now, c)] }

/-- Browser `setTimeout` on the page's queue (the returned id is unused in
main.js outside `debounce`). -/
def World.setTimeout (task : Task) (delay : Nat) (w : World) : World :=
  { w with queue := (w.queue.setTimeout task delay).1 }

/-- Register an event listener. -/
def World.addEventListener (l : Listener) (w : World) : World :=
  { w with listeners := w.listeners ++ [l] }

/-- Replace the spinner element's state. -/
def World.setSpinner (sp : Spinner) (w : World) : World :=
  { w with doc := { w.doc with spinner := some sp } }

/-- Change message `i` in place. -/
def World.modifyFlash (i : Nat) (f : FlashMessage → FlashMessage) (w : World) : World :=
  { w with doc := { w.doc with flashMessages := w.doc.flashMessages.modify f i } }

/-- The error raised by `spinner.classList` when `spinner` is `null`. -/
def nullClassList : String := "TypeError: Cannot read properties of null (reading classList)"

/-- The error raised by `spinner.remove()` when `spinner` is `null`. -/
def nullRemove : String := "TypeError: Cannot read properties of null (reading remove)"

/-- The statement `spinner.classList.add('hidden')` followed by `rest`; on a
`null` spinner the callback ends with a `TypeError`. -/
def spinnerClassListAddHidden (rest : World → World) (w : World) : World :=
  match w.doc.spinner with
  | none => w.record (.uncaught nullClassList)
  | some sp => rest ((w.setSpinner { sp with hidden := true }).record .spinnerHide)

/-- The timer callback of lines 26-28: `spinner.remove()`. -/
def spinnerRemove (w : World) : World :=
  match w.doc.spinner with
  | none => w.record (.uncaught nullRemove)
  | some sp => (w.setSpinner { sp with attached := false }).record (.spinnerRemove sp.attached)

/-- The timer callback of lines 22-29. -/
def loadHide (w : World) : World :=
  spinnerClassListAddHidden (fun w1 => w1.setTimeout .spinnerRemove 300) w

/-- The timer callback of lines 33-35. -/
def fallbackHide (w : World) : World :=
  spinnerClassListAddHidden (fun w1 => w1) w

/-- The load listener of lines 21-30. -/
def onLoadSpinner (w : World) : World :=
  w.setTimeout .loadHide 500

/-- Source `initializeLoading` (lines 16-36). -/
def initializeLoading (w : World) : World :=
  let w1 := w.addEventListener .loadSpinner
  w1.setTimeout .fallbackHide 3000

/-- The click listener of lines 43-46: toggle `active` on both elements. -/
def onNavToggleClick (w : World) : World :=
  { w with doc := { w.doc with
      navToggle := w.doc.navToggle.map (fun e => { e with active := !e.active }),
      navMenu := w.doc.navMenu.map (fun e => { e with active := !e.active }) } }

/-- Remove `active` from both elements (lines 51-52 and 59-60). -/
def navClose (w : World) : World :=
  { w with doc := { w.doc with
      navToggle := w.doc.navToggle.map (fun e => { e with active := false }),
      navMenu := w.doc.navMenu.map (fun e => { e with active := false }) } }

/-- Where a click lands. -/
inductive ClickTarget where
  | navToggle
  | navMenu
  | flashClose (i : Nat)
  | elsewhere
deriving DecidableEq, Repr

/-- The document click listener of lines 49-54. -/
def onDocumentClick (target : ClickTarget) (w : World) : World :=
  let inToggle := target == .navToggle
  let inMenu := target == .navMenu
  if !inToggle && !inMenu then navClose w else w

/-- The resize listener of lines 57-62. -/
def onResize (innerWidth : Nat) (w : World) : World :=
  if innerWidth > 768 then navClose w else w

/-- Source `initializeNavigation` (lines 38-64). -/
def initializeNavigation (w : World) : World :=
  if w.doc.navToggle.isSome && w.doc.navMenu.isSome then
    ((w.addEventListener .navToggleClick).addEventListener .documentClick).addEventListener .resize
  else w

/-- The two statements `message.style.animation = ...; setTimeout(remove, 300)`
shared by the close handler and the expiry callback. -/
def flashSlideOut (i : Nat) (w : World) : World :=
  let w1 := (w.modifyFlash i
    (fun m => { m with animation := some "slideOut 0.3s ease forwards" })).record (.flashAnimation i)
  (w1.setTimeout (.flashRemove i) 300).record (.flashSetTimeout i)

/-- The click listener of lines 73-78 for message `i`. -/
def onFlashClose (i : Nat) (w : World) : World :=
  flashSlideOut i w

/-- The `parentNode` check of line 83 for message `i`. -/
def flashAttached (i : Nat) (w : World) : Bool :=
  match w.doc.flashMessages[i]? with
  | some m => m.attached
  | none => false

/-- The timer callback of lines 82-89 for message `i`. -/
def flashExpire (i : Nat) (w : World) : World :=
  if flashAttached i w then flashSlideOut i w else w

/-- The timer callback `message.remove()` for message `i`. -/
def flashRemove (i : Nat) (w : World) : World :=
  (w.modifyFlash i (fun m => { m with attached := false })).record
    (.flashRemove i (flashAttached i w))

/-- The body of the `forEach` of lines 69-90 for message `i`. -/
def initializeFlashMessage (i : Nat) (m : FlashMessage) (w : World) : World :=
  let w1 := if m.closeBtn then w.addEventListener (.flashClose i) else w
  w1.setTimeout (.flashExpire i) 5000

/-- The `forEach` loop over the messages from index `i` on. -/
def forEachFlashMessage : Nat → List FlashMessage → World → World
  | _, [], w => w
  | i, m :: ms, w => forEachFlashMessage (i + 1) ms (initializeFlashMessage i m w)

/-- Source `initializeFlashMessages` (lines 66-91). -/
def initializeFlashMessages (w : World) : World :=
  forEachFlashMessage 0 w.doc.flashMessages w

/-- Source `initializeServiceWorker` (lines 93-96): empty. -/
def initializeServiceWorker (w : World) : World := w

/-- The load listener of lines 101-111. -/
def onLoadPerformance (w : World) : World :=
  match w.doc.performance with
  | none => w
  | some loadTime =>
    let w1 := w.record (.consoleLog loadTime)
    if loadTime > 3000 then w1.record (.consoleWarn loadTime) else w1

/-- Source `initializePerformanceMonitoring` (lines 98-113). -/
def initializePerformanceMonitoring (w : World) : World :=
  if w.doc.performance.isSome then w.addEventListener .loadPerformance else w

/-- Source `init` (lines 8-14). -/
def init (w : World) : World :=
  initializePerformanceMonitoring
    (initializeServiceWorker
      (initializeFlashMessages
        (initializeNavigation
          (initializeLoading w))))

/-- Source `constructor` (lines 4-6), run on a document at time 0. -/
def construct (doc : Document) : World :=
  init { doc := doc, queue := TimerQueue.empty, listeners := [], trace := [] }

/-- Run a timer callback. -/
def exec : Task → World → World
  | .loadHide, w => loadHide w
  | .spinnerRemove, w => spinnerRemove w
  | .fallbackHide, w => fallbackHide w
  | .flashRemove i, w => flashRemove i w
  | .flashExpire i, w => flashExpire i w

/-- What the browser delivers to the page. -/
inductive Event where
  | load
  | click (target : ClickTarget)
  | resize (innerWidth : Nat)
deriving DecidableEq, Repr

/-- Run a listener if the event is one it was registered for at the event's
target. -/
def handleAtTarget : Event → Listener → World → World
  | .load, .loadSpinner, w => onLoadSpinner w
  | .load, .loadPerformance, w => onLoadPerformance w
  | .click .navToggle, .navToggleClick, w => onNavToggleClick w
  | .click (.flashClose i), .flashClose j, w => if i = j then onFlashClose j w else w
  | .resize innerWidth, .resize, w => onResize innerWidth w
  | _, _, w => w

/-- Run a listener registered on the document when a click bubbles up to it. -/
def handleBubbled : Event → Listener → World → World
  | .click target, .documentClick, w => onDocumentClick target w
  | _, _, w => w

/-- Deliver an event: the listeners at the target in registration order, then
those on the document. -/
def dispatch (e : Event) (w : World) : World :=
  let w1 := w.listeners.foldl (fun acc l => handleAtTarget e l acc) w
  w.listeners.foldl (fun acc l => handleBubbled e l acc) w1

/-- The clock reaches the due time of the first pending timer, which leaves
the queue; `rest` are the timers behind it. -/
def World.takeTimer (due : Nat) (rest : List (Timer Task)) (w : World) : World :=
  { w with queue := { w.queue with now := due, pending := rest } }

/-- Run the pending timers that are due by `limit` (all of them for `none`), in
order; `fuel` bounds the number of callbacks run. -/
def runDue : Nat → Option Nat → World → World
  | 0, _, w => w
  | fuel + 1, limit, w =>
    match w.queue.pending with
    | [] => w
    | tm :: rest =>
      if limit.all (fun l => tm.due ≤ l) then
        runDue fuel limit (exec tm.task (w.takeTimer tm.due rest))
      else w

/-- The largest number of callbacks a pending timer can lead to: its own, and
for `loadHide` and `flashExpire` that of the one timer they set. -/
def Task.weight : Task → Nat
  | .loadHide => 2
  | .flashExpire _ => 2
  | _ => 1

/-- A bound on the callbacks still to run for a list of pending timers. -/
def potential (ts : List (Timer Task)) : Nat :=
  (ts.map (fun t => t.task.weight)).sum

/-- Fuel enough to run every pending timer and the timers they set. -/
def fuelFor (w : World) : Nat := potential w.queue.pending

/-- Let `dt` milliseconds pass: the timers due in that span run, then the clock
stands at the new time. -/
def elapse (dt : Nat) (w : World) : World :=
  let w1 := runDue (fuelFor w) (some (w.queue.now + dt)) w
  { w1 with queue := { w1.queue with now := w.queue.now + dt } }

/-- Deliver the events in order, each `gap` milliseconds after the previous one
(the first one `gap` after construction). -/
def deliver : List (Nat × Event) → World → World
  | [], w => w
  | (gap, e) :: rest, w => deliver rest (dispatch e (elapse gap w))

/-- Let every pending timer run. -/
def settle (w : World) : World :=
  runDue (fuelFor w) none w

/-- The calls of the record that concern the spinner. -/
def Call.onSpinner : Call → Bool
  | .spinnerHide => true
  | .spinnerRemove _ => true
  | _ => false

/-- The calls of the record that concern message `i`. -/
def Call.onFlash (i : Nat) : Call → Bool
  | .flashAnimation j => i == j
  | .flashSetTimeout j => i == j
  | .flashRemove j _ => i == j
  | _ => false

/-- The uncaught errors in the record. -/
def Call.isUncaught : Call → Bool
  | .uncaught _ => true
  | _ => false

/-! ### One element at a time

The callbacks of main.js that concern one element (the spinner, or one flash
message) read and write only that element, their own timers and their own
entries of the record. A `View` is the part of a `World` that belongs to one
element, and a `Component` runs the callbacks of that element on the view
alone. The theorems below show that the view of a run of the whole page is the
run of the component on the view. -/

/-- The part of a world that belongs to one element: the element, its pending
timers in queue order with ids erased, its listeners, and its entries in the
record. -/
structure View (E : Type) where
  elem : E
  timers : List (Timer Task)
  listeners : List Listener
  trace : List (Nat × Call)
deriving DecidableEq, Repr

/-- Which tasks, listeners and calls belong to an element, how to find the
element in the document, and its callbacks as functions on the view (given the
current time). -/
structure Component (E : Type) where
  mineTask : Task → Bool
  mineListener : Listener → Bool
  mineCall : Call → Bool
  elem : Document → E
  exec : Nat → Task → View E → View E
  handle : Nat → Event → Listener → View E → View E

/-- Forget a timer id. -/
def eraseId (t : Timer Task) : Timer Task := { t with id := 0 }

/-- The view of a world for a component. -/
def Component.view {E : Type} (C : Component E) (w : World) : View E :=
  { elem := C.elem w.doc,
    timers := (w.queue.pending.filter (fun t => C.mineTask t.task)).map eraseId,
    listeners := w.listeners.filter C.mineListener,
    trace := w.trace.filter (fun c => C.mineCall c.2) }

/-- Set a timer on a view. -/
def View.setTimeout {E : Type} (now : Nat) (task : Task) (delay : Nat) (v : View E) : View E :=
  { v with timers :=
      TimerQueue.insertTimer ⟨0, now + TimerQueue.timeoutDelay delay, task⟩ v.timers }

/-- Append a call to the record of a view. -/
def View.record {E : Type} (now : Nat) (c : Call) (v : View E) : View E :=
  { v with trace := v.trace ++ [(now, c)] }

/-- Run the timers of a view that are due by `limit`, as `runDue` does. -/
def Component.runDue {E : Type} (C : Component E) : Nat → Option Nat → View E → View E
  | 0, _, v => v
  | fuel + 1, limit, v =>
    match v.timers with
    | [] => v
    | tm :: rest =>
      if limit.all (fun l => tm.due ≤ l) then
        C.runDue fuel limit (C.exec tm.due tm.task { v with timers := rest })
      else v

/-- Let the timers of a view run that are due by time `now`. -/
def Component.elapse {E : Type} (C : Component E) (now : Nat) (v : View E) : View E :=
  C.runDue (potential v.timers) (some now) v

/-- Deliver an event to the listeners of a view at time `now`. -/
def Component.dispatch {E : Type} (C : Component E) (now : Nat) (e : Event) (v : View E) :
    View E :=
  v.listeners.foldl (fun acc l => C.handle now e l acc) v

/-- Let every pending timer of a view run. -/
def Component.settle {E : Type} (C : Component E) (v : View E) : View E :=
  C.runDue (potential v.timers) none v

/-- The spinner on its own. -/
def spinnerComponent : Component (Option Spinner) where
  mineTask
    | .loadHide => true
    | .spinnerRemove => true
    | .fallbackHide => true
    | _ => false
  mineListener
    | .loadSpinner => true
    | _ => false
  mineCall := Call.onSpinner
  elem doc := doc.spinner
  exec now task v :=
    match task, v.elem with
    | .loadHide, some sp =>
      let v1 := View.record now .spinnerHide { v with elem := some { sp with hidden := true } }
      v1.setTimeout now .spinnerRemove 300
    | .fallbackHide, some sp =>
      View.record now .spinnerHide { v with elem := some { sp with hidden := true } }
    | .spinnerRemove, some sp =>
      View.record now (.spinnerRemove sp.attached)
        { v with elem := some { sp with attached := false } }
    | _, _ => v
  handle now e l v :=
    match e, l with
    | .load, .loadSpinner => v.setTimeout now .loadHide 500
    | _, _ => v

/-- The two statements of `flashSlideOut` on the view of message `i`. -/
def viewSlideOut (i now : Nat) (v : View (Option FlashMessage)) : View (Option FlashMessage) :=
  let elem := v.elem.map (fun m => { m with animation := some "slideOut 0.3s ease forwards" })
  let v1 := View.record now (.flashAnimation i) { v with elem := elem }
  (v1.setTimeout now (.flashRemove i) 300).record now (.flashSetTimeout i)

/-- The `parentNode` check on the view of a message. -/
def viewAttached (v : View (Option FlashMessage)) : Bool :=
  match v.elem with
  | some m => m.attached
  | none => false

/-- Flash message `i` on its own. -/
def flashComponent (i : Nat) : Component (Option FlashMessage) where
  mineTask
    | .flashRemove j => i == j
    | .flashExpire j => i == j
    | _ => false
  mineListener
    | .flashClose j => i == j
    | _ => false
  mineCall := Call.onFlash i
  elem doc := doc.flashMessages[i]?
  exec now task v :=
    match task with
    | .flashExpire _ => if viewAttached v then viewSlideOut i now v else v
    | .flashRemove _ =>
      let elem := v.elem.map (fun m => { m with attached := false })
      View.record now (.flashRemove i (viewAttached v)) { v with elem := elem }
    | _ => v
  handle now e l v :=
    match e, l with
    | .click (.flashClose a), .flashClose b => if a = b then viewSlideOut i now v else v
    | _, _ => v

/-- The pending timers are ordered by due time. -/
def Sorted (ts : List (Timer Task)) : Prop :=
  ts.Pairwise (fun a b => a.due ≤ b.due)

/-- What makes a component a faithful view of the page: a callback or listener
of the element acts on the view as the component says, and any other leaves
the view as it is. -/
structure Component.Sound {E : Type} (C : Component E) : Prop where
  exec_mine : ∀ (t : Task) (w : World), C.mineTask t = true → Sorted w.queue.pending →
    C.view (VendorApp.exec t w) = C.exec w.queue.now t (C.view w)
  exec_other : ∀ (t : Task) (w : World), C.mineTask t = false →
    C.view (VendorApp.exec t w) = C.view w
  handle_mine : ∀ (e : Event) (l : Listener) (w : World), C.mineListener l = true →
    Sorted w.queue.pending →
    C.view (handleAtTarget e l w) = C.handle w.queue.now e l (C.view w)
  handle_other : ∀ (e : Event) (l : Listener) (w : World), C.mineListener l = false →
    C.view (handleAtTarget e l w) = C.view w
  bubbled : ∀ (e : Event) (l : Listener) (w : World),
    C.view (handleBubbled e l w) = C.view w

/-- The spinner element exists and no callback has ended with an error. -/
def NoError (w : World) : Prop :=
  w.doc.spinner.isSome = true ∧ ∀ c ∈ w.trace, Call.isUncaught c.2 = false

/-- The calls `spinner.remove()` in the record. -/
def Call.isSpinnerRemove : Call → Bool
  | .spinnerRemove _ => true
  | _ => false

/-- The page after the load event has fired `L` ms after construction (`none`:
it never fires) and every timer has run. -/
def afterLoad (doc : Document) : Option Nat → World
  | none => settle (construct doc)
  | some L => settle (deliver [(L, .load)] (construct doc))

/-- The page after one click on the close button of message `i`, `t` ms after
construction, and after every timer has run. -/
def afterClose (doc : Document) (i t : Nat) : World :=
  settle (deliver [(t, .click (.flashClose i))] (construct doc))

/-- A page with the spinner and one flash message that has a close button. -/
def samplePage : Document :=
  { spinner := some { hidden := false, attached := true },
    navToggle := none, navMenu := none,
    flashMessages := [{ closeBtn := true, animation := none, attached := true }],
    performance := none }

/-- A page that has everything except the element `loading-spinner`. -/
def pageWithoutSpinner : Document :=
  { spinner := none,
    navToggle := some { active := false }, navMenu := some { active := false },
    flashMessages := [{ closeBtn := true, animation := none, attached := true }],
    performance := some 1200 }

end VendorApp

/-! ## Theorems: theme.js -/

namespace ThemeManager

theorem truthy_some (v : String) : truthy (some v) = true ↔ v ≠ "" := by
  simp [truthy]

theorem applyTheme_currentTheme (t : String) (s : State) :
    (applyTheme t s).currentTheme = t := by
  unfold applyTheme updateToggleButton
  dsimp only
  split
  · rfl
  · split
    · rfl
    · split <;> rfl

theorem applyTheme_dataTheme (t : String) (s : State) :
    (applyTheme t s).dataTheme = some t := by
  unfold applyTheme updateToggleButton
  dsimp only
  split
  · rfl
  · split
    · rfl
    · split <;> rfl

theorem applyTheme_dispatched (t : String) (s : State) :
    (applyTheme t s).dispatched = s.dispatched := by
  unfold applyTheme updateToggleButton
  dsimp only
  split
  · rfl
  · split
    · rfl
    · split <;> rfl

theorem applyTheme_changeListeners (t : String) (s : State) :
    (applyTheme t s).changeListeners = s.changeListeners := by
  unfold applyTheme updateToggleButton
  dsimp only
  split
  · rfl
  · split
    · rfl
    · split <;> rfl

theorem applyTheme_storage (t : String) (s : State) :
    (applyTheme t s).storage = setStoredTheme t s.storage := by
  unfold applyTheme updateToggleButton
  dsimp only
  split
  · rfl
  · split
    · rfl
    · split <;> rfl


theorem updateToggleButton_fields (t : String) (s : State) :
    (updateToggleButton t s).currentTheme = s.currentTheme ∧
    (updateToggleButton t s).dataTheme = s.dataTheme ∧
    (updateToggleButton t s).storage = s.storage ∧
    (updateToggleButton t s).changeListeners = s.changeListeners ∧
    (updateToggleButton t s).clickListeners = s.clickListeners ∧
    (updateToggleButton t s).dispatched = s.dispatched := by
  unfold updateToggleButton
  split
  · simp
  · split
    · simp
    · split <;> simp

theorem initializeThemeToggle_fields (s : State) :
    (initializeThemeToggle s).currentTheme = s.currentTheme ∧
    (initializeThemeToggle s).dataTheme = s.dataTheme ∧
    (initializeThemeToggle s).storage = s.storage ∧
    (initializeThemeToggle s).changeListeners = s.changeListeners ∧
    (initializeThemeToggle s).dispatched = s.dispatched := by
  unfold initializeThemeToggle
  dsimp only
  obtain ⟨h1, h2, h3, h4, -, h6⟩ := updateToggleButton_fields
    (match s.toggleButton with
      | some _ => { s with clickListeners := s.clickListeners + 1 }
      | none => s).currentTheme
    (match s.toggleButton with
      | some _ => { s with clickListeners := s.clickListeners + 1 }
      | none => s)
  rw [h1, h2, h3, h4, h6]
  cases s.toggleButton <;> simp

/-- With working storage the write made by `applyTheme` in `init` is what
`initializeSystemPreference` then reads back. -/
theorem construct_working (item : Option String) (dt : Option String)
    (tb : Option ToggleButton) (pd : Bool) :
    let t := if truthy item then item.getD "dark-blue" else "dark-blue"
    let s := construct (workingPage item dt tb pd)
    s.currentTheme = t ∧ s.dataTheme = some t ∧ s.storage = workingStorage (some t) ∧
      s.changeListeners = 0 ∧ s.dispatched = [] := by
  intro t s
  have ht : truthy (some t) = true := by
    simp only [t]
    cases item with
    | none => simp [truthy]
    | some v =>
      by_cases hv : v = ""
      · simp [truthy, hv]
      · simp [truthy, hv]
  have hs : s = initializeSystemPreference (initializeThemeToggle (applyTheme t
      { storage := workingStorage item, dataTheme := dt, toggleButton := tb, prefersDark := pd,
        currentTheme := t, clickListeners := 0, changeListeners := 0, dispatched := [] })) := by
    simp [s, t, construct, init, getStoredTheme, workingStorage, workingPage]
  obtain ⟨h1, h2, h3, h4, h5⟩ := initializeThemeToggle_fields (applyTheme t
      { storage := workingStorage item, dataTheme := dt, toggleButton := tb, prefersDark := pd,
        currentTheme := t, clickListeners := 0, changeListeners := 0, dispatched := [] })
  rw [applyTheme_currentTheme] at h1
  rw [applyTheme_dataTheme] at h2
  rw [applyTheme_storage] at h3
  rw [applyTheme_changeListeners] at h4
  rw [applyTheme_dispatched] at h5
  have h3' : (initializeThemeToggle (applyTheme t
      { storage := workingStorage item, dataTheme := dt, toggleButton := tb, prefersDark := pd,
        currentTheme := t, clickListeners := 0, changeListeners := 0, dispatched := [] })).storage
      = workingStorage (some t) := by
    rw [h3]; simp [setStoredTheme, workingStorage]
  have hid : initializeSystemPreference (initializeThemeToggle (applyTheme t
      { storage := workingStorage item, dataTheme := dt, toggleButton := tb, prefersDark := pd,
        currentTheme := t, clickListeners := 0, changeListeners := 0, dispatched := [] })) =
      initializeThemeToggle (applyTheme t
      { storage := workingStorage item, dataTheme := dt, toggleButton := tb, prefersDark := pd,
        currentTheme := t, clickListeners := 0, changeListeners := 0, dispatched := [] }) := by
    unfold initializeSystemPreference
    rw [h3']
    simp [getStoredTheme, workingStorage, ht]
  rw [hs, hid]
  exact ⟨h1, h2, h3', h4, h5⟩


theorem toggleTheme_valid (s : State) : ValidTheme (toggleTheme s) := by
  unfold ValidTheme toggleTheme
  dsimp only
  rw [applyTheme_currentTheme]
  by_cases h : s.currentTheme = "dark-blue" <;> simp [h]

theorem setTheme_valid (t : String) (s : State) (h : ValidTheme s) : ValidTheme (setTheme t s) := by
  unfold setTheme
  split
  · rename_i ht
    unfold ValidTheme
    rw [applyTheme_currentTheme]
    simpa using ht
  · exact h

theorem onSchemeChange_valid (m : Bool) (s : State) (h : ValidTheme s) :
    ValidTheme (onSchemeChange m s) := by
  unfold onSchemeChange
  split
  · unfold ValidTheme
    dsimp only
    rw [applyTheme_currentTheme]
    cases m <;> simp
  · exact h

theorem iterate_valid (f : State → State) (hf : ∀ s, ValidTheme s → ValidTheme (f s))
    (n : Nat) (s : State) (h : ValidTheme s) : ValidTheme (Nat.iterate f n s) := by
  induction n generalizing s with
  | zero => exact h
  | succ n ih => exact ih (f s) (hf s h)

theorem act_valid (a : Action) (s : State) (h : ValidTheme s) : ValidTheme (act a s) := by
  cases a with
  | toggleTheme => exact toggleTheme_valid s
  | setTheme t => exact setTheme_valid t s h
  | schemeChange m =>
    exact iterate_valid _ (onSchemeChange_valid m) _ _ h
  | clickToggle =>
    exact iterate_valid _ (fun s _ => toggleTheme_valid s) _ _ h

theorem actAll_valid (as : List Action) (s : State) (h : ValidTheme s) :
    ValidTheme (actAll as s) := by
  induction as generalizing s with
  | nil => exact h
  | cons a as ih => exact ih (act a s) (act_valid a s h)

theorem initializeSystemPreference_valid (s : State) (h : ValidTheme s) :
    ValidTheme (initializeSystemPreference s) := by
  unfold initializeSystemPreference
  split
  · exact h
  · unfold ValidTheme
    dsimp only
    rw [applyTheme_currentTheme]
    cases s.prefersDark <;> simp

theorem construct_valid (p : Page)
    (hp : getStoredTheme p.storage = none ∨ getStoredTheme p.storage = some "" ∨
      getStoredTheme p.storage = some "dark-blue" ∨ getStoredTheme p.storage = some "light") :
    ValidTheme (construct p) := by
  unfold construct init
  dsimp only
  apply initializeSystemPreference_valid
  unfold ValidTheme
  rw [(initializeThemeToggle_fields _).1, applyTheme_currentTheme]
  rcases hp with h | h | h | h <;> simp [h, truthy]

theorem toggleTheme_currentTheme (s : State) :
    (toggleTheme s).currentTheme =
      if s.currentTheme = "dark-blue" then "light" else "dark-blue" := by
  unfold toggleTheme; dsimp only; rw [applyTheme_currentTheme]

theorem toggleTheme_dispatched (s : State) :
    (toggleTheme s).dispatched =
      s.dispatched ++ [if s.currentTheme = "dark-blue" then "light" else "dark-blue"] := by
  unfold toggleTheme; dsimp only; rw [applyTheme_dispatched]

theorem toggleTheme_twice_of_valid (s : State) (h : ValidTheme s) :
    getCurrentTheme (toggleTheme (toggleTheme s)) = getCurrentTheme s ∧
    ∃ a b, (toggleTheme (toggleTheme s)).dispatched = s.dispatched ++ [a, b] ∧ a ≠ b ∧
      b = getCurrentTheme s := by
  unfold getCurrentTheme
  rw [toggleTheme_currentTheme (toggleTheme s), toggleTheme_dispatched (toggleTheme s),
    toggleTheme_dispatched s, toggleTheme_currentTheme s]
  rcases h with h | h
  · rw [h]
    refine ⟨by decide, "light", "dark-blue", by simp, by decide, rfl⟩
  · rw [h]
    refine ⟨by decide, "dark-blue", "light", by simp, by decide, rfl⟩


/-- C1 (the code departs from the claim). With working storage and nothing
stored, construction ends with `getCurrentTheme()` and `data-theme` equal to
`dark-blue` whatever the environment prefers: with a light preference
(`prefersDark = false`) the claim requires `light`. The write `applyTheme` makes
in `init` is read back by `initializeSystemPreference`, which then returns
before consulting the media query. -/
theorem construct_nothing_stored_is_dark_blue (dt : Option String)
    (tb : Option ToggleButton) (pd : Bool) :
    getCurrentTheme (construct (workingPage none dt tb pd)) = "dark-blue" ∧
    (construct (workingPage none dt tb pd)).dataTheme = some "dark-blue" := by
  have h := construct_working none dt tb pd
  simp only [truthy] at h
  exact ⟨h.1, h.2.1⟩

/-- C2 (the code departs from the claim). After construction with working
storage and nothing stored, no handler is registered on the media query, and
any sequence of colour-scheme change events leaves `getCurrentTheme()` and
`data-theme` at `dark-blue`, also when the new preference is light. -/
theorem schemeChange_after_construct_is_ignored (dt : Option String)
    (tb : Option ToggleButton) (pd : Bool) (changes : List Bool) :
    (construct (workingPage none dt tb pd)).changeListeners = 0 ∧
    getCurrentTheme (changes.foldl (fun acc m => schemeChange m acc)
      (construct (workingPage none dt tb pd))) = "dark-blue" ∧
    (changes.foldl (fun acc m => schemeChange m acc)
      (construct (workingPage none dt tb pd))).dataTheme = some "dark-blue" := by
  have h := construct_working none dt tb pd
  simp only [truthy] at h
  obtain ⟨h1, h2, -, h4, -⟩ := h
  refine ⟨h4, ?_⟩
  generalize construct (workingPage none dt tb pd) = s at h1 h2 h4
  induction changes generalizing s with
  | nil => exact ⟨h1, h2⟩
  | cons m ms ih =>
    simp only [List.foldl_cons]
    apply ih
    · simp [schemeChange, h4, h1]
    · simp [schemeChange, h4, h2]
    · simp [schemeChange, h4]

/-- C3 (counterexample). With the string `purple` found in storage at
construction the current theme is `purple`; two calls of `toggleTheme()` leave
it at `light`, and the second event carries `light`, not the original theme. -/
theorem toggleTheme_twice_from_purple :
    getCurrentTheme (construct (workingPage (some "purple") none none false)) = "purple" ∧
    getCurrentTheme (toggleTheme (toggleTheme (construct
      (workingPage (some "purple") none none false)))) = "light" ∧
    (toggleTheme (toggleTheme (construct
      (workingPage (some "purple") none none false)))).dispatched = ["dark-blue", "light"] := by
  decide

/-- C3 (amended). When the value found in storage at construction is absent,
empty, `dark-blue` or `light`, then in every state the controller reaches by
any sequence of calls and events, two calls of `toggleTheme()` leave
`getCurrentTheme()` unchanged and dispatch exactly two `themeChanged` events
with distinct themes, the second being the original theme. -/
theorem toggleTheme_twice_restores (p : Page) (as : List Action)
    (hp : getStoredTheme p.storage = none ∨ getStoredTheme p.storage = some "" ∨
      getStoredTheme p.storage = some "dark-blue" ∨ getStoredTheme p.storage = some "light") :
    getCurrentTheme (toggleTheme (toggleTheme (actAll as (construct p)))) =
      getCurrentTheme (actAll as (construct p)) ∧
    ∃ a b, (toggleTheme (toggleTheme (actAll as (construct p)))).dispatched =
        (actAll as (construct p)).dispatched ++ [a, b] ∧ a ≠ b ∧
      b = getCurrentTheme (actAll as (construct p)) :=
  toggleTheme_twice_of_valid _ (actAll_valid as _ (construct_valid p hp))

/-- Witness for C3: a page with `light` stored, then `setTheme`, a
colour-scheme change and a click. -/
theorem toggleTheme_twice_restores_witness :
    (getStoredTheme (workingStorage (some "light")) = none ∨
      getStoredTheme (workingStorage (some "light")) = some "" ∨
      getStoredTheme (workingStorage (some "light")) = some "dark-blue" ∨
      getStoredTheme (workingStorage (some "light")) = some "light") ∧
    (getCurrentTheme (toggleTheme (toggleTheme (actAll
        [.setTheme "dark-blue", .schemeChange false, .clickToggle]
        (construct (workingPage (some "light") none (some ⟨some "fas", none⟩) true))))) =
      getCurrentTheme (actAll [.setTheme "dark-blue", .schemeChange false, .clickToggle]
        (construct (workingPage (some "light") none (some ⟨some "fas", none⟩) true))) ∧
    ∃ a b, (toggleTheme (toggleTheme (actAll
        [.setTheme "dark-blue", .schemeChange false, .clickToggle]
        (construct (workingPage (some "light") none (some ⟨some "fas", none⟩) true))))).dispatched =
        (actAll [.setTheme "dark-blue", .schemeChange false, .clickToggle]
        (construct (workingPage (some "light") none (some ⟨some "fas", none⟩) true))).dispatched ++ [a, b] ∧
      a ≠ b ∧
      b = getCurrentTheme (actAll [.setTheme "dark-blue", .schemeChange false, .clickToggle]
        (construct (workingPage (some "light") none (some ⟨some "fas", none⟩) true)))) :=
  ⟨by decide,
   toggleTheme_twice_restores
     (workingPage (some "light") none (some ⟨some "fas", none⟩) true)
     [.setTheme "dark-blue", .schemeChange false, .clickToggle] (by decide)⟩

/-- C4. For `t` one of `dark-blue` and `light` and every prior state, after
`setTheme(t)` the current theme and the root's `data-theme` are `t`, and when
the toggle button and its icon exist the icon class and `aria-label` are
`fas fa-moon` / `Switch to light theme` for `dark-blue` and `fas fa-sun` /
`Switch to dark theme` for `light`. -/
theorem setTheme_postcondition (t : String) (s : State)
    (ht : t = "dark-blue" ∨ t = "light") :
    getCurrentTheme (setTheme t s) = t ∧
    (setTheme t s).dataTheme = some t ∧
    (∀ b c, s.toggleButton = some b → b.icon = some c →
      (t = "dark-blue" → (setTheme t s).toggleButton =
        some ⟨some "fas fa-moon", some "Switch to light theme"⟩) ∧
      (t = "light" → (setTheme t s).toggleButton =
        some ⟨some "fas fa-sun", some "Switch to dark theme"⟩)) := by
  have hs : setTheme t s = applyTheme t s := by
    rcases ht with rfl | rfl <;> simp [setTheme]
  rw [hs]
  refine ⟨applyTheme_currentTheme t s, applyTheme_dataTheme t s, ?_⟩
  intro b c hb hc
  rcases ht with rfl | rfl
  · simp [applyTheme, updateToggleButton, hb, hc]
  · simp [applyTheme, updateToggleButton, hb, hc]

/-- Witness for C4: `setTheme('light')` on a dark page with a toggle button. -/
theorem setTheme_postcondition_witness :
    ("light" = "dark-blue" ∨ "light" = "light") ∧
    (getCurrentTheme (setTheme "light" (construct (workingPage none none (some ⟨some "fas", none⟩) true)))
      = "light" ∧
    (setTheme "light" (construct (workingPage none none (some ⟨some "fas", none⟩) true))).dataTheme = some "light" ∧
    (∀ b c, (construct (workingPage none none (some ⟨some "fas", none⟩) true)).toggleButton = some b → b.icon = some c →
      ("light" = "dark-blue" → (setTheme "light" (construct (workingPage none none (some ⟨some "fas", none⟩) true))).toggleButton =
        some ⟨some "fas fa-moon", some "Switch to light theme"⟩) ∧
      ("light" = "light" → (setTheme "light" (construct (workingPage none none (some ⟨some "fas", none⟩) true))).toggleButton =
        some ⟨some "fas fa-sun", some "Switch to dark theme"⟩))) :=
  ⟨by decide, setTheme_postcondition "light" _ (by decide)⟩

end ThemeManager

/-! ## Theorems: main.js utilities -/

namespace VendorApp

open TimerQueue

theorem timeoutDelay_of_lt (d : Nat) (h : d < 2147483648) : timeoutDelay d = d := by
  unfold timeoutDelay
  have hm : d % 4294967296 = d := Nat.mod_eq_of_lt (by omega)
  simp only [hm, h, if_true]

@[simp] theorem timeoutDelay_300 : timeoutDelay 300 = 300 := timeoutDelay_of_lt 300 (by omega)

@[simp] theorem timeoutDelay_500 : timeoutDelay 500 = 500 := timeoutDelay_of_lt 500 (by omega)

@[simp] theorem timeoutDelay_3000 : timeoutDelay 3000 = 3000 :=
  timeoutDelay_of_lt 3000 (by omega)

@[simp] theorem timeoutDelay_5000 : timeoutDelay 5000 = 5000 :=
  timeoutDelay_of_lt 5000 (by omega)

theorem replaceNonDigits_eq_filter (cs : List Char) :
    replaceNonDigits cs = cs.filter Char.isDigit := by
  induction cs with
  | nil => rfl
  | cons c cs ih =>
    by_cases h : c.isDigit = true
    · simp [replaceNonDigits, isNonDigit, h, ih]
    · simp [replaceNonDigits, isNonDigit, h, ih]

theorem startsWith_255 (cs : List Char) :
    startsWith cs "255".data = true ↔ cs.take 3 = ['2', '5', '5'] := by
  have h : "255".data = ['2', '5', '5'] := rfl
  rw [h]
  match cs with
  | [] => simp [startsWith]
  | [a] => simp [startsWith]
  | [a, b] => simp [startsWith]
  | a :: b :: c :: rest => simp [startsWith, and_assoc]

/-- C5. `formatPhoneNumber` agrees with its reference definition on every
string, and on the three examples of the specification. -/
theorem formatPhoneNumber_eq_spec :
    (∀ p : String, formatPhoneNumber p = formatPhoneNumberSpec p) ∧
    formatPhoneNumber "255712345678" = "+255712345678" ∧
    formatPhoneNumber "0712345678" = "0712345678" ∧
    formatPhoneNumber "" = "" := by
  refine ⟨?_, by decide, by decide, by decide⟩
  intro p
  unfold formatPhoneNumber formatPhoneNumberSpec
  have he : (p = "") ↔ (p.length = 0) := by
    constructor
    · rintro rfl; rfl
    · intro h
      have : p.data = [] := List.length_eq_zero.mp h
      exact String.ext this
  by_cases hp : p = ""
  · simp [hp]
  · have hl : ¬ p.length = 0 := fun h => hp (he.mpr h)
    simp only [hp, hl, if_false]
    rw [replaceNonDigits_eq_filter]
    have hd : p.toList = p.data := rfl
    rw [hd]
    by_cases hc : (List.filter Char.isDigit p.data).length = 12 ∧
        List.take 3 (List.filter Char.isDigit p.data) = ['2', '5', '5']
    · have hs := (startsWith_255 (List.filter Char.isDigit p.data)).mpr hc.2
      simp only [hc.1, hs, hc.2]
      simp
      rfl
    · rw [if_neg hc]
      have : ¬ (((List.filter Char.isDigit p.data).length == 12 &&
          startsWith (List.filter Char.isDigit p.data) "255".data) = true) := by
        intro h
        simp only [Bool.and_eq_true, beq_iff_eq] at h
        exact hc ⟨h.1, (startsWith_255 _).mp h.2⟩
      simp only [this, if_false]
      simp


/-- C7 (counterexample). With `null` as the options argument the promise
returned by `apiCall` rejects, although `fetch` would have answered 200; and
when `fetch` rejects with the string `timeout` as its reason the result is
`success: false` with `error` undefined, not a string. -/
theorem apiCall_null_options_rejects :
    apiCall (fetchResolving 200 "body") "/api/items" .null =
      .rejected (Thrown.error "Cannot read properties of null (reading headers)") ∧
    apiCall (fetchRejecting (.prim (.string "timeout"))) "/api/items" .undefined =
      .resolved (.failure .undefined) := by
  decide

/-- C7 (amended). For every url, every options argument other than `null` and
every behaviour of `fetch` whose rejection reason and whose body-parsing
failure are `Error` objects: `apiCall` resolves to `success: true` with the
parsed body exactly when `fetch` resolved with an ok response whose body parsed;
in every other case it resolves to `success: false` with a string `error`; and
a response with status 500 gives the non-empty string
`HTTP error! status: 500`. -/
theorem apiCall_tagged_result {δ : Type} (fetch : String → MergedOptions → FetchOutcome δ)
    (url : String) (options : OptionsArg) (hopt : options ≠ .null)
    (hreject : ∀ reason, fetch url (fetchOptions options) = .rejects reason →
      ∃ msg, reason = Thrown.error msg)
    (hparse : ∀ r e, fetch url (fetchOptions options) = .resolves r → r.json = .error e →
      ∃ msg, e = Thrown.error msg) :
    (∀ data, apiCall fetch url options = .resolved (.success data) ↔
      ∃ r, fetch url (fetchOptions options) = .resolves r ∧ r.ok = true ∧ r.json = .ok data) ∧
    ((¬ ∃ r data, fetch url (fetchOptions options) = .resolves r ∧ r.ok = true ∧
        r.json = .ok data) →
      ∃ msg, apiCall fetch url options = .resolved (.failure (.string msg))) ∧
    (∀ r, fetch url (fetchOptions options) = .resolves r → r.status = 500 →
      apiCall fetch url options = .resolved (.failure (.string "HTTP error! status: 500")) ∧
      "HTTP error! status: 500" ≠ "") := by
  obtain ⟨o, ho⟩ : ∃ o, options.withDefault = some o := by
    cases options with
    | undefined => exact ⟨_, rfl⟩
    | null => exact absurd rfl hopt
    | object o => exact ⟨o, rfl⟩
  have hm : fetchOptions options = mergeOptions o := by simp [fetchOptions, ho]
  rw [hm] at hreject hparse ⊢
  unfold apiCall
  rw [ho]
  dsimp only
  cases hf : fetch url (mergeOptions o) with
  | rejects reason =>
    obtain ⟨msg, rfl⟩ := hreject reason hf
    refine ⟨?_, ?_, ?_⟩
    · intro data
      simp [apiCallCatch, Thrown.message, Thrown.error]
    · intro _
      exact ⟨msg, by simp [apiCallCatch, Thrown.message, Thrown.error]⟩
    · intro r hr
      cases hr
  | resolves response =>
    by_cases hok : response.ok = true
    · cases hj : response.json with
      | error e =>
        obtain ⟨msg, rfl⟩ := hparse response e hf hj
        refine ⟨?_, ?_, ?_⟩
        · intro data
          simp [hok, hj, apiCallCatch, Thrown.message, Thrown.error]
        · intro _
          exact ⟨msg, by simp [hok, hj, apiCallCatch, Thrown.message, Thrown.error]⟩
        · intro r hr h500
          cases hr
          simp [Response.ok, h500] at hok
      | ok data =>
        refine ⟨?_, ?_, ?_⟩
        · intro data2
          simp [hok, hj]
        · intro hno
          exact absurd ⟨response, data, rfl, hok, hj⟩ hno
        · intro r hr h500
          cases hr
          simp [Response.ok, h500] at hok
    · refine ⟨?_, ?_, ?_⟩
      · intro data
        simp [hok, apiCallCatch, Thrown.message, Thrown.error]
      · intro _
        exact ⟨_, by simp [hok, apiCallCatch, Thrown.message, Thrown.error]; rfl⟩
      · intro r hr h500
        cases hr
        refine ⟨?_, by decide⟩
        simp [hok, apiCallCatch, Thrown.message, Thrown.error, h500]
        rfl

/-- Witness for C7: an endpoint answering 500, called without options. -/
theorem apiCall_tagged_result_witness :
    OptionsArg.undefined ≠ OptionsArg.null ∧
    (∀ reason, fetchResolving 500 "oops" "/api/items" (fetchOptions .undefined) =
      .rejects reason → ∃ msg, reason = Thrown.error msg) ∧
    (∀ r e, fetchResolving 500 "oops" "/api/items" (fetchOptions .undefined) = .resolves r →
      r.json = .error e → ∃ msg, e = Thrown.error msg) ∧
    apiCall (fetchResolving 500 "oops") "/api/items" .undefined =
      .resolved (.failure (.string "HTTP error! status: 500")) ∧
    "HTTP error! status: 500" ≠ "" :=
  have h1 : OptionsArg.undefined ≠ OptionsArg.null := by decide
  have h2 : ∀ reason, fetchResolving 500 "oops" "/api/items" (fetchOptions .undefined) =
      .rejects reason → ∃ msg, reason = Thrown.error msg := by
    intro reason h; cases h
  have h3 : ∀ r e, fetchResolving 500 "oops" "/api/items" (fetchOptions .undefined) =
      .resolves r → r.json = .error e → ∃ msg, e = Thrown.error msg := by
    intro r e h hj
    cases h
    cases hj
  ⟨h1, h2, h3,
    (apiCall_tagged_result (fetchResolving 500 "oops") "/api/items" .undefined h1 h2 h3).2.2
      _ rfl rfl⟩

theorem executedFunction_armed {α : Type} (w T gap : Nat) (a b : α) (id n : Nat)
    (hw : w < 2147483648) (hgap : gap < w) :
    executedFunction b ((armed w T a id n).elapse gap) = armed w (T + gap) b n (n + 1) := by
  have h : ¬ (T + w ≤ T + gap) := by omega
  simp [armed, Debounced.elapse, Debounced.runDue, executedFunction, TimerQueue.clearTimeout,
    TimerQueue.setTimeout, TimerQueue.insertTimer, h, timeoutDelay_of_lt w hw]

theorem invokeAll_armed {α : Type} (w : Nat) (rest : List (Nat × α)) (hw : w < 2147483648)
    (hgap : ∀ p ∈ rest, p.1 < w) (T : Nat) (a : α) (id n : Nat) :
    ∃ id2 n2, Debounced.invokeAll rest (armed w T a id n) =
      armed w (T + (rest.map Prod.fst).sum) (rest.foldl (fun _ p => p.2) a) id2 n2 := by
  induction rest generalizing T a id n with
  | nil => exact ⟨id, n, by simp [Debounced.invokeAll]⟩
  | cons p ps ih =>
    obtain ⟨gap, b⟩ := p
    have hg : gap < w := hgap (gap, b) (by simp)
    obtain ⟨id2, n2, h⟩ := ih (fun q hq => hgap q (by simp [hq])) (T + gap) b n (n + 1)
    refine ⟨id2, n2, ?_⟩
    simp only [Debounced.invokeAll, executedFunction_armed w T gap a b id n hw hg, h]
    simp [Nat.add_assoc]

theorem getLast_snd_eq_foldl {α : Type} (p : Nat × α) (rest : List (Nat × α)) :
    ((p :: rest).getLast (List.cons_ne_nil p rest)).2 = rest.foldl (fun _ q => q.2) p.2 := by
  induction rest generalizing p with
  | nil => rfl
  | cons r rs ih =>
    rw [List.getLast_cons_cons, List.foldl_cons]
    exact ih r

theorem settle_armed {α : Type} (w T : Nat) (a : α) (id n : Nat) :
    (armed w T a id n).settle.calls = [(T + w, a)] ∧
    (armed w T a id n).settle.queue.pending = [] := by
  simp [armed, Debounced.settle, Debounced.runDue, later, TimerQueue.clearTimeout]

theorem invoke_first {α : Type} (w gap : Nat) (a : α) (hw : w < 2147483648) :
    executedFunction a ((debounce w : Debounced α).elapse gap) = armed w gap a 1 2 := by
  simp [armed, debounce, Debounced.elapse, Debounced.runDue, executedFunction,
    TimerQueue.clearTimeout, TimerQueue.setTimeout, TimerQueue.insertTimer, TimerQueue.empty,
    timeoutDelay_of_lt w hw]

/-- C6 (counterexample). With the wait `2^31 = 2147483648` the delay handed to
`setTimeout` does not fit a signed 32-bit integer and every timer is due at
once: five invocations at 50 ms spacing, each less than the wait after the one
before, run `fn` five times, once for each invocation and with its
arguments. -/
theorem debounce_overflowing_wait_calls_each_time :
    0 < 2147483648 ∧
    (∀ p ∈ [(50, "b"), (50, "c"), (50, "d"), (50, "e")], p.1 < 2147483648) ∧
    (((Debounced.invokeAll [(0, "a"), (50, "b"), (50, "c"), (50, "d"), (50, "e")]
      (debounce 2147483648)).settle).calls.map Prod.snd) = ["a", "b", "c", "d", "e"] := by
  decide

/-- C6 (amended). For a wait `w` below `2^31`, a burst of invocations of the
function returned by `debounce(fn, w)`, each less than `w` ms after the one
before, makes `fn` run exactly once: `w` ms after the last invocation and with
the arguments of the last invocation; no timer is left pending afterwards. -/
theorem debounce_burst_calls_once {α : Type} (w : Nat) (first : Nat × α)
    (rest : List (Nat × α)) (hw : w < 2147483648) (hgap : ∀ p ∈ rest, p.1 < w) :
    ((Debounced.invokeAll (first :: rest) (debounce w)).settle).calls =
      [((((first :: rest).map Prod.fst).sum) + w,
        ((first :: rest).getLast (List.cons_ne_nil first rest)).2)] ∧
    ((Debounced.invokeAll (first :: rest) (debounce w)).settle).queue.pending = [] := by
  obtain ⟨gap, a⟩ := first
  obtain ⟨id2, n2, h⟩ := invokeAll_armed w rest hw hgap gap a 1 2
  simp only [Debounced.invokeAll, invoke_first w gap a hw, h]
  have hs := settle_armed w (gap + (rest.map Prod.fst).sum) (rest.foldl (fun _ p => p.2) a) id2 n2
  refine ⟨?_, hs.2⟩
  rw [hs.1, getLast_snd_eq_foldl]
  simp

/-- Witness for C6: `debounce(fn, 100)` invoked five times at 50 ms spacing
runs `fn` once, 100 ms after the fifth invocation, with its arguments. -/
theorem debounce_burst_calls_once_witness :
    (100 < 2147483648 ∧ ∀ p ∈ [(50, "b"), (50, "c"), (50, "d"), (50, "e")], p.1 < 100) ∧
    ((Debounced.invokeAll [(0, "a"), (50, "b"), (50, "c"), (50, "d"), (50, "e")]
      (debounce 100)).settle).calls = [(300, "e")] ∧
    ((Debounced.invokeAll [(0, "a"), (50, "b"), (50, "c"), (50, "d"), (50, "e")]
      (debounce 100)).settle).queue.pending = [] :=
  ⟨⟨by decide, by decide⟩,
   debounce_burst_calls_once 100 (0, "a") [(50, "b"), (50, "c"), (50, "d"), (50, "e")]
     (by decide) (by decide)⟩

/-! ## Theorems: the timer queue -/


theorem weight_pos (t : Task) : 1 ≤ t.weight := by
  cases t <;> simp [Task.weight]

theorem potential_cons (t : Timer Task) (l : List (Timer Task)) :
    potential (t :: l) = t.task.weight + potential l := by
  simp [potential]

theorem potential_insertTimer (t : Timer Task) (l : List (Timer Task)) :
    potential (insertTimer t l) = t.task.weight + potential l := by
  induction l with
  | nil => simp [insertTimer, potential]
  | cons u us ih =>
    unfold insertTimer
    split
    · simp [potential]
    · rw [potential_cons, ih, potential_cons]; omega

theorem potential_eq_zero (l : List (Timer Task)) (h : potential l = 0) : l = [] := by
  cases l with
  | nil => rfl
  | cons t ts =>
    rw [potential_cons] at h
    have := weight_pos t.task
    omega

theorem potential_map_eraseId (l : List (Timer Task)) :
    potential (l.map eraseId) = potential l := by
  simp [potential, eraseId, Function.comp_def]

theorem potential_filter_le (p : Timer Task → Bool) (l : List (Timer Task)) :
    potential (l.filter p) ≤ potential l := by
  induction l with
  | nil => simp
  | cons t ts ih =>
    by_cases h : p t = true
    · simp only [List.filter_cons, h, if_true, potential_cons]; omega
    · simp only [List.filter_cons, h, potential_cons]; simp; omega

theorem mem_insertTimer (t u : Timer Task) (l : List (Timer Task)) :
    u ∈ insertTimer t l ↔ u = t ∨ u ∈ l := by
  induction l with
  | nil => simp [insertTimer]
  | cons v vs ih =>
    unfold insertTimer
    split
    · simp
    · simp [ih]; tauto

theorem sorted_insertTimer (t : Timer Task) (l : List (Timer Task)) (h : Sorted l) :
    Sorted (insertTimer t l) := by
  induction l with
  | nil => simp [insertTimer, Sorted]
  | cons u us ih =>
    unfold Sorted at h ⊢
    rw [List.pairwise_cons] at h
    unfold insertTimer
    split
    · rename_i hlt
      rw [List.pairwise_cons]
      refine ⟨?_, List.pairwise_cons.mpr h⟩
      intro v hv
      rcases List.mem_cons.mp hv with rfl | hv
      · omega
      · have := h.1 v hv; omega
    · rename_i hge
      rw [List.pairwise_cons]
      refine ⟨?_, ih h.2⟩
      intro v hv
      rcases (mem_insertTimer t v us).mp hv with rfl | hv
      · omega
      · exact h.1 v hv

theorem filter_insertTimer_other (p : Timer Task → Bool) (t : Timer Task)
    (l : List (Timer Task)) (hp : p t = false) :
    (insertTimer t l).filter p = l.filter p := by
  induction l with
  | nil => simp [insertTimer, hp]
  | cons u us ih =>
    unfold insertTimer
    split
    · simp [List.filter_cons, hp]
    · simp only [List.filter_cons, ih]

theorem filter_insertTimer_mine (p : Timer Task → Bool) (t : Timer Task)
    (l : List (Timer Task)) (hs : Sorted l) (hp : p t = true) :
    (insertTimer t l).filter p = insertTimer t (l.filter p) := by
  induction l with
  | nil => simp [insertTimer, hp]
  | cons u us ih =>
    unfold Sorted at hs
    rw [List.pairwise_cons] at hs
    by_cases hlt : t.due < u.due
    · have h1 : insertTimer t (u :: us) = t :: u :: us := by simp [insertTimer, hlt]
      rw [h1]
      have h2 : ∀ l' : List (Timer Task), (∀ v ∈ l', t.due < v.due) →
          insertTimer t l' = t :: l' := by
        intro l' hl'
        cases l' with
        | nil => rfl
        | cons v vs => simp [insertTimer, hl' v (by simp)]
      rw [h2]
      · simp [List.filter_cons, hp]
      · intro v hv
        have hv' := (List.mem_filter.mp hv).1
        rcases List.mem_cons.mp hv' with rfl | hv'
        · exact hlt
        · have := hs.1 v hv'; omega
    · have h1 : insertTimer t (u :: us) = u :: insertTimer t us := by simp [insertTimer, hlt]
      rw [h1]
      by_cases hu : p u = true
      · simp only [List.filter_cons, hu, if_true, ih hs.2]
        simp [insertTimer, hlt]
      · simp only [List.filter_cons, hu, ih hs.2]
        simp

theorem map_eraseId_insertTimer (t : Timer Task) (l : List (Timer Task)) :
    (insertTimer t l).map eraseId = insertTimer (eraseId t) (l.map eraseId) := by
  induction l with
  | nil => simp [insertTimer]
  | cons u us ih =>
    by_cases hlt : t.due < u.due
    · simp [insertTimer, hlt, eraseId]
    · have h1 : insertTimer t (u :: us) = u :: insertTimer t us := by simp [insertTimer, hlt]
      rw [h1, List.map_cons, ih]
      simp [insertTimer, hlt, eraseId]


theorem exec_queue (t : Task) (w : World) :
    (exec t w).queue.now = w.queue.now ∧
    ((exec t w).queue.pending = w.queue.pending ∨
      ∃ c : Timer Task, c.task.weight < t.weight ∧ w.queue.now ≤ c.due ∧
        (exec t w).queue.pending = insertTimer c w.queue.pending) := by
  cases t with
  | loadHide =>
    simp only [exec, loadHide, spinnerClassListAddHidden]
    cases w.doc.spinner with
    | none => simp [World.record]
    | some sp =>
      refine ⟨by simp [World.record, World.setTimeout, World.setSpinner, TimerQueue.setTimeout], ?_⟩
      right
      exact ⟨⟨w.queue.nextId, w.queue.now + 300, .spinnerRemove⟩, by simp [Task.weight],
        by simp, by simp [World.record, World.setTimeout, World.setSpinner, TimerQueue.setTimeout]⟩
  | spinnerRemove =>
    simp only [exec, spinnerRemove]
    cases w.doc.spinner <;> simp [World.record, World.setSpinner]
  | fallbackHide =>
    simp only [exec, fallbackHide, spinnerClassListAddHidden]
    cases w.doc.spinner <;> simp [World.record, World.setSpinner]
  | flashRemove i =>
    simp [exec, flashRemove, World.record, World.modifyFlash]
  | flashExpire i =>
    simp only [exec, flashExpire]
    split
    · refine ⟨by simp [flashSlideOut, World.record, World.setTimeout, World.modifyFlash,
        TimerQueue.setTimeout], ?_⟩
      right
      exact ⟨⟨w.queue.nextId, w.queue.now + 300, .flashRemove i⟩, by simp [Task.weight],
        by simp, by simp [flashSlideOut, World.record, World.setTimeout, World.modifyFlash,
          TimerQueue.setTimeout]⟩
    · simp

theorem exec_sorted (t : Task) (w : World) (h : Sorted w.queue.pending) :
    Sorted (exec t w).queue.pending := by
  rcases (exec_queue t w).2 with h1 | ⟨c, -, -, h1⟩
  · rw [h1]; exact h
  · rw [h1]; exact sorted_insertTimer c _ h

theorem exec_potential (t : Task) (w : World) :
    potential (exec t w).queue.pending + 1 ≤ potential w.queue.pending + t.weight := by
  rcases (exec_queue t w).2 with h1 | ⟨c, hc, -, h1⟩
  · rw [h1]; have := weight_pos t; omega
  · rw [h1, potential_insertTimer]; omega

theorem exec_potential_filter (p : Timer Task → Bool) (t : Task) (w : World) :
    potential ((exec t w).queue.pending.filter p) + 1 ≤
      potential (w.queue.pending.filter p) + t.weight := by
  rcases (exec_queue t w).2 with h1 | ⟨c, hc, -, h1⟩
  · rw [h1]; have := weight_pos t; omega
  · rw [h1]
    have hle : potential ((insertTimer c w.queue.pending).filter p) ≤
        c.task.weight + potential (w.queue.pending.filter p) := by
      clear h1
      induction w.queue.pending with
      | nil =>
        by_cases hpc : p c = true
        · simp [insertTimer, hpc, potential]
        · simp [insertTimer, hpc, potential]
      | cons u us ih =>
        unfold insertTimer
        split
        · by_cases hpc : p c = true
          · simp only [List.filter_cons, hpc, if_true, potential_cons]; omega
          · simp only [List.filter_cons, hpc, potential_cons]; simp
        · by_cases hpu : p u = true
          · simp only [List.filter_cons, hpu, if_true, potential_cons] at ih ⊢; omega
          · simpa only [List.filter_cons, hpu] using ih
    omega

@[simp] theorem takeTimer_pending (due : Nat) (rest : List (Timer Task)) (w : World) :
    (w.takeTimer due rest).queue.pending = rest := rfl

@[simp] theorem takeTimer_now (due : Nat) (rest : List (Timer Task)) (w : World) :
    (w.takeTimer due rest).queue.now = due := rfl

@[simp] theorem takeTimer_doc (due : Nat) (rest : List (Timer Task)) (w : World) :
    (w.takeTimer due rest).doc = w.doc := rfl

@[simp] theorem takeTimer_listeners (due : Nat) (rest : List (Timer Task)) (w : World) :
    (w.takeTimer due rest).listeners = w.listeners := rfl

@[simp] theorem takeTimer_trace (due : Nat) (rest : List (Timer Task)) (w : World) :
    (w.takeTimer due rest).trace = w.trace := rfl

theorem runDue_cons (fuel : Nat) (limit : Option Nat) (w : World) (tm : Timer Task)
    (rest : List (Timer Task)) (h : w.queue.pending = tm :: rest)
    (hd : limit.all (fun l => decide (tm.due ≤ l)) = true) :
    runDue (fuel + 1) limit w = runDue fuel limit (exec tm.task (w.takeTimer tm.due rest)) := by
  simp [runDue, h, hd]

theorem runDue_stop (fuel : Nat) (limit : Option Nat) (w : World) (tm : Timer Task)
    (rest : List (Timer Task)) (h : w.queue.pending = tm :: rest)
    (hd : limit.all (fun l => decide (tm.due ≤ l)) = false) :
    runDue fuel limit w = w := by
  cases fuel with
  | zero => rfl
  | succ n => simp [runDue, h, hd]

theorem componentRun_cons {E : Type} (C : Component E) (fuel : Nat) (limit : Option Nat)
    (v : View E) (tm : Timer Task) (rest : List (Timer Task)) (h : v.timers = tm :: rest)
    (hd : limit.all (fun l => decide (tm.due ≤ l)) = true) :
    C.runDue (fuel + 1) limit v =
      C.runDue fuel limit (C.exec tm.due tm.task { v with timers := rest }) := by
  simp [Component.runDue, h, hd]

theorem runDue_nil (fuel : Nat) (limit : Option Nat) (w : World) (h : w.queue.pending = []) :
    runDue fuel limit w = w := by
  cases fuel with
  | zero => rfl
  | succ n => simp [runDue, h]

theorem componentRun_nil {E : Type} (C : Component E) (fuel : Nat) (limit : Option Nat)
    (v : View E) (h : v.timers = []) : C.runDue fuel limit v = v := by
  cases fuel with
  | zero => rfl
  | succ n => simp [Component.runDue, h]

theorem componentRun_not_due {E : Type} (C : Component E) (fuel : Nat) (limit : Option Nat)
    (v : View E) (h : ∀ t ∈ v.timers, limit.all (fun l => decide (t.due ≤ l)) = false) :
    C.runDue fuel limit v = v := by
  cases fuel with
  | zero => rfl
  | succ n =>
    cases hv : v.timers with
    | nil => simp [Component.runDue, hv]
    | cons tm rest =>
      have := h tm (by simp [hv])
      simp [Component.runDue, hv, this]

/-- The view of the timers due by a limit, run on the whole page, is the
component's own run on the view. -/
theorem view_runDue {E : Type} (C : Component E) (hC : C.Sound) (limit : Option Nat) :
    ∀ (fuel fuel2 : Nat) (w : World), Sorted w.queue.pending →
      potential w.queue.pending ≤ fuel → potential (C.view w).timers ≤ fuel2 →
      C.view (runDue fuel limit w) = C.runDue fuel2 limit (C.view w) ∧
      Sorted (runDue fuel limit w).queue.pending := by
  intro fuel
  induction fuel with
  | zero =>
    intro fuel2 w hs hf _
    have hnil : w.queue.pending = [] := potential_eq_zero _ (by omega)
    have hv : (C.view w).timers = [] := by simp [Component.view, hnil]
    rw [componentRun_nil C _ _ _ hv]
    exact ⟨rfl, hs⟩
  | succ n ih =>
    intro fuel2 w hs hf hf2
    cases hp : w.queue.pending with
    | nil =>
      have hv : (C.view w).timers = [] := by simp [Component.view, hp]
      rw [componentRun_nil C _ _ _ hv, runDue_nil _ _ _ hp]
      exact ⟨rfl, hs⟩
    | cons tm rest =>
      have hsr : Sorted rest := by
        rw [hp] at hs; exact (List.pairwise_cons.mp hs).2
      by_cases hdue : limit.all (fun l => decide (tm.due ≤ l)) = true
      · -- the head timer runs
        rw [runDue_cons n limit w tm rest hp hdue]
        have hpot := exec_potential tm.task (w.takeTimer tm.due rest)
        have hsort := exec_sorted tm.task (w.takeTimer tm.due rest) hsr
        rw [takeTimer_pending] at hpot
        rw [hp, potential_cons] at hf
        by_cases hm : C.mineTask tm.task = true
        · have hvt : (C.view w).timers =
              eraseId tm :: (rest.filter (fun t => C.mineTask t.task)).map eraseId := by
            simp [Component.view, hp, hm]
          have hview := hC.exec_mine tm.task (w.takeTimer tm.due rest) hm hsr
          have hpf := exec_potential_filter (fun t => C.mineTask t.task) tm.task
            (w.takeTimer tm.due rest)
          rw [takeTimer_pending] at hpf
          rw [hvt, potential_cons, potential_map_eraseId] at hf2
          have hw : (eraseId tm).task.weight = tm.task.weight := rfl
          rw [hw] at hf2
          obtain ⟨m, rfl⟩ : ∃ m, fuel2 = m + 1 :=
            ⟨fuel2 - 1, by have := weight_pos tm.task; omega⟩
          have hih := ih m _ hsort (by omega)
            (by
              simp only [Component.view, potential_map_eraseId]
              omega)
          rw [hih.1, hview]
          refine ⟨?_, hih.2⟩
          rw [componentRun_cons C m limit (C.view w) (eraseId tm) _ hvt hdue]
          rfl
        · have hm2 : C.mineTask tm.task = false := by simpa using hm
          have hview := hC.exec_other tm.task (w.takeTimer tm.due rest) hm2
          have hvw : C.view (w.takeTimer tm.due rest) = C.view w := by
            simp [Component.view, hp, hm2]
          have hih := ih fuel2 _ hsort (by omega) (by rw [hview, hvw]; exact hf2)
          rw [hih.1, hview, hvw]
          exact ⟨rfl, hih.2⟩
      · -- nothing is due
        have hdue2 : limit.all (fun l => decide (tm.due ≤ l)) = false := by simpa using hdue
        rw [runDue_stop _ limit w tm rest hp hdue2]
        refine ⟨?_, hs⟩
        rw [componentRun_not_due C]
        intro t ht
        simp only [Component.view, List.mem_map, List.mem_filter] at ht
        obtain ⟨u, ⟨hu, -⟩, rfl⟩ := ht
        rw [hp] at hu hs
        have hle : tm.due ≤ u.due := by
          rcases List.mem_cons.mp hu with rfl | hu
          · exact Nat.le_refl _
          · exact (List.pairwise_cons.mp hs).1 u hu
        cases limit with
        | none => simp at hdue2
        | some l =>
          simp only [Option.all_some, decide_eq_false_iff_not, eraseId] at hdue2 ⊢
          omega


theorem handleAtTarget_queue (e : Event) (l : Listener) (w : World) :
    (handleAtTarget e l w).queue.now = w.queue.now ∧
    ((handleAtTarget e l w).queue.pending = w.queue.pending ∨
      ∃ c : Timer Task, (handleAtTarget e l w).queue.pending = insertTimer c w.queue.pending) := by
  unfold handleAtTarget
  split
  · exact ⟨rfl, Or.inr ⟨_, rfl⟩⟩
  · simp only [onLoadPerformance]
    split
    · simp
    · split <;> simp [World.record]
  · simp [onNavToggleClick]
  · split
    · exact ⟨rfl, Or.inr ⟨_, rfl⟩⟩
    · simp
  · simp only [onResize]
    split <;> simp [navClose]
  · simp

theorem handleAtTarget_sorted (e : Event) (l : Listener) (w : World)
    (h : Sorted w.queue.pending) : Sorted (handleAtTarget e l w).queue.pending := by
  rcases (handleAtTarget_queue e l w).2 with h1 | ⟨c, h1⟩
  · rw [h1]; exact h
  · rw [h1]; exact sorted_insertTimer c _ h

theorem handleBubbled_queue (e : Event) (l : Listener) (w : World) :
    (handleBubbled e l w).queue = w.queue := by
  unfold handleBubbled
  split
  · simp only [onDocumentClick]
    split <;> simp [navClose]
  · rfl

theorem view_foldl_target {E : Type} (C : Component E) (hC : C.Sound) (e : Event) :
    ∀ (ls : List Listener) (acc : World), Sorted acc.queue.pending →
      C.view (ls.foldl (fun a l => handleAtTarget e l a) acc) =
        (ls.filter C.mineListener).foldl (fun a l => C.handle acc.queue.now e l a) (C.view acc) ∧
      Sorted (ls.foldl (fun a l => handleAtTarget e l a) acc).queue.pending ∧
      (ls.foldl (fun a l => handleAtTarget e l a) acc).queue.now = acc.queue.now := by
  intro ls
  induction ls with
  | nil => intro acc hs; exact ⟨rfl, hs, rfl⟩
  | cons l ls ih =>
    intro acc hs
    have hs2 := handleAtTarget_sorted e l acc hs
    have hn := (handleAtTarget_queue e l acc).1
    obtain ⟨h1, h2, h3⟩ := ih (handleAtTarget e l acc) hs2
    simp only [List.foldl_cons]
    refine ⟨?_, h2, by rw [h3, hn]⟩
    rw [h1, hn]
    by_cases hm : C.mineListener l = true
    · rw [hC.handle_mine e l acc hm hs]
      simp [List.filter_cons, hm]
    · have hm2 : C.mineListener l = false := by simpa using hm
      rw [hC.handle_other e l acc hm2]
      simp [List.filter_cons, hm2]

theorem view_foldl_bubbled {E : Type} (C : Component E) (hC : C.Sound) (e : Event) :
    ∀ (ls : List Listener) (acc : World),
      C.view (ls.foldl (fun a l => handleBubbled e l a) acc) = C.view acc ∧
      (ls.foldl (fun a l => handleBubbled e l a) acc).queue = acc.queue := by
  intro ls
  induction ls with
  | nil => intro acc; exact ⟨rfl, rfl⟩
  | cons l ls ih =>
    intro acc
    obtain ⟨h1, h2⟩ := ih (handleBubbled e l acc)
    simp only [List.foldl_cons]
    exact ⟨by rw [h1, hC.bubbled], by rw [h2, handleBubbled_queue]⟩

/-- The view of an event delivered to the whole page is the event delivered to
the component. -/
theorem view_dispatch {E : Type} (C : Component E) (hC : C.Sound) (e : Event) (w : World)
    (hs : Sorted w.queue.pending) :
    C.view (dispatch e w) = C.dispatch w.queue.now e (C.view w) ∧
    Sorted (dispatch e w).queue.pending ∧ (dispatch e w).queue.now = w.queue.now := by
  obtain ⟨h1, h2, h3⟩ := view_foldl_target C hC e w.listeners w hs
  obtain ⟨h4, h5⟩ := view_foldl_bubbled C hC e w.listeners
    (w.listeners.foldl (fun a l => handleAtTarget e l a) w)
  unfold dispatch
  dsimp only
  refine ⟨?_, by rw [h5]; exact h2, by rw [h5]; exact h3⟩
  rw [h4, h1]
  rfl

/-- The view of time passing on the whole page is time passing for the
component. -/
theorem view_elapse {E : Type} (C : Component E) (hC : C.Sound) (dt : Nat) (w : World)
    (hs : Sorted w.queue.pending) :
    C.view (elapse dt w) = C.elapse (w.queue.now + dt) (C.view w) ∧
    Sorted (elapse dt w).queue.pending ∧ (elapse dt w).queue.now = w.queue.now + dt := by
  obtain ⟨h1, h2⟩ := view_runDue C hC (some (w.queue.now + dt)) (fuelFor w)
    (potential (C.view w).timers) w hs (Nat.le_refl _) (Nat.le_refl _)
  refine ⟨?_, h2, rfl⟩
  unfold Component.elapse
  rw [← h1]
  rfl

/-- The view of the whole page after every timer has run is the component
after every one of its timers has run. -/
theorem view_settle {E : Type} (C : Component E) (hC : C.Sound) (w : World)
    (hs : Sorted w.queue.pending) :
    C.view (settle w) = C.settle (C.view w) :=
  (view_runDue C hC none (fuelFor w) (potential (C.view w).timers) w hs
    (Nat.le_refl _) (Nat.le_refl _)).1

/-- One event at time `now + t` and then every timer, seen through a view. -/
theorem view_deliver_one {E : Type} (C : Component E) (hC : C.Sound) (t : Nat) (e : Event)
    (w : World) (hs : Sorted w.queue.pending) :
    C.view (settle (deliver [(t, e)] w)) =
      C.settle (C.dispatch (w.queue.now + t) e (C.elapse (w.queue.now + t) (C.view w))) := by
  obtain ⟨h1, h2, h3⟩ := view_elapse C hC t w hs
  obtain ⟨h4, h5, -⟩ := view_dispatch C hC e (elapse t w) h2
  simp only [deliver]
  rw [view_settle C hC _ h5, h4, h3, h1]


theorem view_insert_mine {E : Type} (C : Component E) (c : Timer Task)
    (l : List (Timer Task)) (hs : Sorted l) (hm : C.mineTask c.task = true) :
    ((insertTimer c l).filter (fun t => C.mineTask t.task)).map eraseId =
      insertTimer ⟨0, c.due, c.task⟩ ((l.filter (fun t => C.mineTask t.task)).map eraseId) := by
  rw [filter_insertTimer_mine (fun t => C.mineTask t.task) c l hs hm, map_eraseId_insertTimer]
  rfl

theorem view_insert_other {E : Type} (C : Component E) (c : Timer Task)
    (l : List (Timer Task)) (hm : C.mineTask c.task = false) :
    ((insertTimer c l).filter (fun t => C.mineTask t.task)).map eraseId =
      (l.filter (fun t => C.mineTask t.task)).map eraseId := by
  rw [filter_insertTimer_other (fun t => C.mineTask t.task) c l hm]

theorem spinnerComponent_sound : spinnerComponent.Sound where
  exec_mine := by
    intro t w hm hs
    cases t with
    | loadHide =>
      cases hsp : w.doc.spinner with
      | none =>
        simp [exec, loadHide, spinnerClassListAddHidden, hsp, Component.view, spinnerComponent,
          World.record, Call.onSpinner]
      | some sp =>
        have hi := view_insert_mine spinnerComponent ⟨w.queue.nextId, w.queue.now + 300, .spinnerRemove⟩
          w.queue.pending hs rfl
        simp only [spinnerComponent] at hi
        simp [exec, loadHide, spinnerClassListAddHidden, hsp, Component.view, spinnerComponent,
          World.record, World.setTimeout, World.setSpinner, TimerQueue.setTimeout, Call.onSpinner,
          View.record, View.setTimeout, hi]
    | spinnerRemove =>
      cases hsp : w.doc.spinner with
      | none =>
        simp [exec, spinnerRemove, hsp, Component.view, spinnerComponent,
          World.record, Call.onSpinner]
      | some sp =>
        simp [exec, spinnerRemove, hsp, Component.view, spinnerComponent,
          World.record, World.setSpinner, Call.onSpinner, View.record]
    | fallbackHide =>
      cases hsp : w.doc.spinner with
      | none =>
        simp [exec, fallbackHide, spinnerClassListAddHidden, hsp, Component.view, spinnerComponent,
          World.record, Call.onSpinner]
      | some sp =>
        simp [exec, fallbackHide, spinnerClassListAddHidden, hsp, Component.view, spinnerComponent,
          World.record, World.setSpinner, Call.onSpinner, View.record]
    | flashRemove i => simp [spinnerComponent] at hm
    | flashExpire i => simp [spinnerComponent] at hm
  exec_other := by
    intro t w hm
    cases t with
    | loadHide => simp [spinnerComponent] at hm
    | spinnerRemove => simp [spinnerComponent] at hm
    | fallbackHide => simp [spinnerComponent] at hm
    | flashRemove i =>
      simp [exec, flashRemove, Component.view, spinnerComponent, World.record, World.modifyFlash,
        Call.onSpinner]
    | flashExpire i =>
      simp only [exec, flashExpire]
      split
      · have hi := view_insert_other spinnerComponent
          ⟨w.queue.nextId, w.queue.now + 300, .flashRemove i⟩ w.queue.pending rfl
        simp only [spinnerComponent] at hi
        simp [flashSlideOut, Component.view, spinnerComponent, World.record, World.setTimeout,
          World.modifyFlash, TimerQueue.setTimeout, Call.onSpinner, hi]
      · rfl
  handle_mine := by
    intro e l w hm hs
    cases l with
    | loadSpinner =>
      cases e with
      | load =>
        have hi := view_insert_mine spinnerComponent ⟨w.queue.nextId, w.queue.now + 500, .loadHide⟩
          w.queue.pending hs rfl
        simp only [spinnerComponent] at hi
        simp [handleAtTarget, onLoadSpinner, Component.view, spinnerComponent, World.setTimeout,
          TimerQueue.setTimeout, View.setTimeout, hi]
      | click target => simp [handleAtTarget, spinnerComponent]
      | resize iw => simp [handleAtTarget, spinnerComponent]
    | navToggleClick => simp [spinnerComponent] at hm
    | documentClick => simp [spinnerComponent] at hm
    | resize => simp [spinnerComponent] at hm
    | flashClose i => simp [spinnerComponent] at hm
    | loadPerformance => simp [spinnerComponent] at hm
  handle_other := by
    intro e l w hm
    cases l with
    | loadSpinner => simp [spinnerComponent] at hm
    | navToggleClick =>
      cases e with
      | load => simp [handleAtTarget]
      | click target =>
        cases target <;> simp [handleAtTarget, onNavToggleClick, Component.view, spinnerComponent]
      | resize iw => simp [handleAtTarget]
    | documentClick => cases e <;> simp [handleAtTarget]
    | resize =>
      cases e with
      | load => simp [handleAtTarget]
      | click target => simp [handleAtTarget]
      | resize iw =>
        simp only [handleAtTarget, onResize]
        split <;> simp [navClose, Component.view, spinnerComponent]
    | flashClose i =>
      cases e with
      | load => simp [handleAtTarget]
      | click target =>
        cases target with
        | flashClose j =>
          simp only [handleAtTarget]
          split
          · have hi := view_insert_other spinnerComponent
              ⟨w.queue.nextId, w.queue.now + 300, .flashRemove i⟩ w.queue.pending rfl
            simp only [spinnerComponent] at hi
            simp [onFlashClose, flashSlideOut, Component.view, spinnerComponent, World.record,
              World.setTimeout, World.modifyFlash, TimerQueue.setTimeout, Call.onSpinner, hi]
          · rfl
        | navToggle => simp [handleAtTarget]
        | navMenu => simp [handleAtTarget]
        | elsewhere => simp [handleAtTarget]
      | resize iw => simp [handleAtTarget]
    | loadPerformance =>
      cases e with
      | load =>
        simp only [handleAtTarget, onLoadPerformance]
        split
        · rfl
        · split <;> simp [Component.view, spinnerComponent, World.record, Call.onSpinner]
      | click target => simp [handleAtTarget]
      | resize iw => simp [handleAtTarget]
  bubbled := by
    intro e l w
    unfold handleBubbled
    split
    · simp only [onDocumentClick]
      split <;> simp [navClose, Component.view, spinnerComponent]
    · rfl


theorem view_flashSlideOut_mine (i : Nat) (w : World) (hs : Sorted w.queue.pending) :
    (flashComponent i).view (flashSlideOut i w) =
      viewSlideOut i w.queue.now ((flashComponent i).view w) := by
  have hi := view_insert_mine (flashComponent i)
    ⟨w.queue.nextId, w.queue.now + 300, .flashRemove i⟩ w.queue.pending hs
    (by simp [flashComponent])
  simp only [flashComponent] at hi
  simp [flashSlideOut, viewSlideOut, Component.view, flashComponent, World.record,
    World.setTimeout, World.modifyFlash, TimerQueue.setTimeout, Call.onFlash, View.record,
    View.setTimeout, hi]

theorem view_flashSlideOut_other (i j : Nat) (w : World) (hij : i ≠ j) :
    (flashComponent i).view (flashSlideOut j w) = (flashComponent i).view w := by
  have hi := view_insert_other (flashComponent i)
    ⟨w.queue.nextId, w.queue.now + 300, .flashRemove j⟩ w.queue.pending
    (by simp [flashComponent, hij])
  simp only [flashComponent] at hi
  have hji : j ≠ i := fun h => hij h.symm
  simp [flashSlideOut, Component.view, flashComponent, World.record,
    World.setTimeout, World.modifyFlash, TimerQueue.setTimeout, Call.onFlash, hi, hij, hji]

theorem viewAttached_view (i : Nat) (w : World) :
    viewAttached ((flashComponent i).view w) = flashAttached i w := by
  simp [viewAttached, flashAttached, Component.view, flashComponent]

theorem flash_exec_expire (i j now : Nat) (v : View (Option FlashMessage)) :
    (flashComponent i).exec now (.flashExpire j) v =
      if viewAttached v = true then viewSlideOut i now v else v := rfl

theorem flash_handle_click (i a b now : Nat) (v : View (Option FlashMessage)) :
    (flashComponent i).handle now (.click (.flashClose a)) (.flashClose b) v =
      if a = b then viewSlideOut i now v else v := rfl

theorem flashComponent_sound (i : Nat) : (flashComponent i).Sound where
  exec_mine := by
    intro t w hm hs
    cases t with
    | loadHide => simp [flashComponent] at hm
    | spinnerRemove => simp [flashComponent] at hm
    | fallbackHide => simp [flashComponent] at hm
    | flashRemove j =>
      have hj : i = j := by simpa [flashComponent] using hm
      subst hj
      have ha := viewAttached_view i w
      simp only [exec, flashRemove]
      simp [Component.view, flashComponent, World.record, World.modifyFlash, Call.onFlash,
        View.record, viewAttached, flashAttached]
    | flashExpire j =>
      have hj : i = j := by simpa [flashComponent] using hm
      subst hj
      have ha := viewAttached_view i w
      have hslide := view_flashSlideOut_mine i w hs
      simp only [exec, flashExpire]
      by_cases hatt : flashAttached i w = true
      · rw [if_pos hatt, hslide, flash_exec_expire, ha, if_pos hatt]
      · rw [if_neg hatt, flash_exec_expire, ha, if_neg hatt]
  exec_other := by
    intro t w hm
    cases t with
    | loadHide =>
      simp only [exec, loadHide, spinnerClassListAddHidden]
      have hi := view_insert_other (flashComponent i)
        ⟨w.queue.nextId, w.queue.now + 300, .spinnerRemove⟩ w.queue.pending rfl
      simp only [flashComponent] at hi
      cases w.doc.spinner <;>
        simp [Component.view, flashComponent, World.record, World.setSpinner, World.setTimeout,
          TimerQueue.setTimeout, Call.onFlash, hi]
    | spinnerRemove =>
      simp only [exec, spinnerRemove]
      cases w.doc.spinner <;>
        simp [Component.view, flashComponent, World.record, World.setSpinner, Call.onFlash]
    | fallbackHide =>
      simp only [exec, fallbackHide, spinnerClassListAddHidden]
      cases w.doc.spinner <;>
        simp [Component.view, flashComponent, World.record, World.setSpinner, Call.onFlash]
    | flashRemove j =>
      have hij : i ≠ j := by simpa [flashComponent] using hm
      have hji : j ≠ i := fun h => hij h.symm
      simp [exec, flashRemove, Component.view, flashComponent, World.record, World.modifyFlash,
        Call.onFlash, hij, hji]
    | flashExpire j =>
      have hij : i ≠ j := by simpa [flashComponent] using hm
      simp only [exec, flashExpire]
      split
      · exact view_flashSlideOut_other i j w hij
      · rfl
  handle_mine := by
    intro e l w hm hs
    cases l with
    | flashClose j =>
      have hj : i = j := by simpa [flashComponent] using hm
      subst hj
      cases e with
      | load => simp [handleAtTarget, flashComponent]
      | click target =>
        cases target with
        | flashClose a =>
          simp only [handleAtTarget, onFlashClose]
          by_cases ha : a = i
          · rw [if_pos ha, view_flashSlideOut_mine i w hs, flash_handle_click, if_pos ha]
          · rw [if_neg ha, flash_handle_click, if_neg ha]
        | navToggle => simp [handleAtTarget, flashComponent]
        | navMenu => simp [handleAtTarget, flashComponent]
        | elsewhere => simp [handleAtTarget, flashComponent]
      | resize iw => simp [handleAtTarget, flashComponent]
    | loadSpinner => simp [flashComponent] at hm
    | navToggleClick => simp [flashComponent] at hm
    | documentClick => simp [flashComponent] at hm
    | resize => simp [flashComponent] at hm
    | loadPerformance => simp [flashComponent] at hm
  handle_other := by
    intro e l w hm
    cases l with
    | loadSpinner =>
      cases e with
      | load =>
        have hi := view_insert_other (flashComponent i)
          ⟨w.queue.nextId, w.queue.now + 500, .loadHide⟩ w.queue.pending rfl
        simp only [flashComponent] at hi
        simp [handleAtTarget, onLoadSpinner, Component.view, flashComponent, World.setTimeout,
          TimerQueue.setTimeout, hi]
      | click target => simp [handleAtTarget]
      | resize iw => simp [handleAtTarget]
    | navToggleClick =>
      cases e with
      | load => simp [handleAtTarget]
      | click target =>
        cases target <;> simp [handleAtTarget, onNavToggleClick, Component.view, flashComponent]
      | resize iw => simp [handleAtTarget]
    | documentClick => cases e <;> simp [handleAtTarget]
    | resize =>
      cases e with
      | load => simp [handleAtTarget]
      | click target => simp [handleAtTarget]
      | resize iw =>
        simp only [handleAtTarget, onResize]
        split <;> simp [navClose, Component.view, flashComponent]
    | flashClose j =>
      have hij : i ≠ j := by simpa [flashComponent] using hm
      cases e with
      | load => simp [handleAtTarget]
      | click target =>
        cases target with
        | flashClose a =>
          simp only [handleAtTarget, onFlashClose]
          split
          · exact view_flashSlideOut_other i j w hij
          · rfl
        | navToggle => simp [handleAtTarget]
        | navMenu => simp [handleAtTarget]
        | elsewhere => simp [handleAtTarget]
      | resize iw => simp [handleAtTarget]
    | loadPerformance =>
      cases e with
      | load =>
        simp only [handleAtTarget, onLoadPerformance]
        split
        · rfl
        · split <;> simp [Component.view, flashComponent, World.record, Call.onFlash]
      | click target => simp [handleAtTarget]
      | resize iw => simp [handleAtTarget]
  bubbled := by
    intro e l w
    unfold handleBubbled
    split
    · simp only [onDocumentClick]
      split <;> simp [navClose, Component.view, flashComponent]
    · rfl


theorem view_setTimeout_other {E : Type} (C : Component E) (task : Task) (delay : Nat)
    (w : World) (h : C.mineTask task = false) :
    C.view (w.setTimeout task delay) = C.view w := by
  have hi := view_insert_other C ⟨w.queue.nextId, w.queue.now + timeoutDelay delay, task⟩
    w.queue.pending h
  simp [Component.view, World.setTimeout, TimerQueue.setTimeout, hi]

theorem view_setTimeout_mine {E : Type} (C : Component E) (task : Task) (delay : Nat)
    (w : World) (h : C.mineTask task = true) (hs : Sorted w.queue.pending) :
    C.view (w.setTimeout task delay) = (C.view w).setTimeout w.queue.now task delay := by
  have hi := view_insert_mine C ⟨w.queue.nextId, w.queue.now + timeoutDelay delay, task⟩
    w.queue.pending hs h
  simp [Component.view, World.setTimeout, TimerQueue.setTimeout, View.setTimeout, hi]

theorem view_addEventListener_other {E : Type} (C : Component E) (l : Listener) (w : World)
    (h : C.mineListener l = false) : C.view (w.addEventListener l) = C.view w := by
  simp [Component.view, World.addEventListener, List.filter_append, h]

theorem view_addEventListener_mine {E : Type} (C : Component E) (l : Listener) (w : World)
    (h : C.mineListener l = true) :
    C.view (w.addEventListener l) =
      { C.view w with listeners := (C.view w).listeners ++ [l] } := by
  simp [Component.view, World.addEventListener, List.filter_append, h]

theorem setTimeout_sorted (task : Task) (delay : Nat) (w : World) (hs : Sorted w.queue.pending) :
    Sorted (w.setTimeout task delay).queue.pending :=
  sorted_insertTimer _ _ hs

@[simp] theorem setTimeout_now (task : Task) (delay : Nat) (w : World) :
    (w.setTimeout task delay).queue.now = w.queue.now := rfl

@[simp] theorem setTimeout_doc (task : Task) (delay : Nat) (w : World) :
    (w.setTimeout task delay).doc = w.doc := rfl

@[simp] theorem addEventListener_queue (l : Listener) (w : World) :
    (w.addEventListener l).queue = w.queue := rfl

@[simp] theorem addEventListener_doc (l : Listener) (w : World) :
    (w.addEventListener l).doc = w.doc := rfl

theorem initializeFlashMessage_queue (k : Nat) (m : FlashMessage) (w : World)
    (hs : Sorted w.queue.pending) :
    Sorted (initializeFlashMessage k m w).queue.pending ∧
    (initializeFlashMessage k m w).queue.now = w.queue.now ∧
    (initializeFlashMessage k m w).doc = w.doc ∧
    (initializeFlashMessage k m w).trace = w.trace := by
  unfold initializeFlashMessage
  dsimp only
  split
  · exact ⟨setTimeout_sorted _ _ _ hs, rfl, rfl, rfl⟩
  · exact ⟨setTimeout_sorted _ _ _ hs, rfl, rfl, rfl⟩

theorem forEachFlashMessage_queue (ms : List FlashMessage) :
    ∀ (k : Nat) (w : World), Sorted w.queue.pending →
      Sorted (forEachFlashMessage k ms w).queue.pending ∧
      (forEachFlashMessage k ms w).queue.now = w.queue.now ∧
      (forEachFlashMessage k ms w).doc = w.doc ∧
      (forEachFlashMessage k ms w).trace = w.trace := by
  induction ms with
  | nil => intro k w hs; exact ⟨hs, rfl, rfl, rfl⟩
  | cons m ms ih =>
    intro k w hs
    obtain ⟨h1, h2, h3, h3t⟩ := initializeFlashMessage_queue k m w hs
    obtain ⟨h4, h5, h6, h6t⟩ := ih (k + 1) _ h1
    simp only [forEachFlashMessage]
    exact ⟨h4, by rw [h5, h2], by rw [h6, h3], by rw [h6t, h3t]⟩

theorem view_initializeFlashMessage_other {E : Type} (C : Component E) (k : Nat)
    (m : FlashMessage) (w : World) (h1 : C.mineTask (.flashExpire k) = false)
    (h2 : C.mineListener (.flashClose k) = false) :
    C.view (initializeFlashMessage k m w) = C.view w := by
  unfold initializeFlashMessage
  dsimp only
  rw [view_setTimeout_other C _ _ _ h1]
  split
  · exact view_addEventListener_other C _ _ h2
  · rfl

theorem view_forEach_other {E : Type} (C : Component E) (ms : List FlashMessage) :
    ∀ (k : Nat) (w : World),
      (∀ j, k ≤ j → C.mineTask (.flashExpire j) = false ∧ C.mineListener (.flashClose j) = false) →
      C.view (forEachFlashMessage k ms w) = C.view w := by
  induction ms with
  | nil => intro k w _; rfl
  | cons m ms ih =>
    intro k w h
    simp only [forEachFlashMessage]
    rw [ih (k + 1) _ (fun j hj => h j (by omega)),
      view_initializeFlashMessage_other C k m w (h k (Nat.le_refl _)).1 (h k (Nat.le_refl _)).2]

theorem view_initializeFlashMessage_mine (i : Nat) (m : FlashMessage) (w : World)
    (hs : Sorted w.queue.pending) :
    (flashComponent i).view (initializeFlashMessage i m w) =
      { (flashComponent i).view w with
        timers := insertTimer ⟨0, w.queue.now + 5000, .flashExpire i⟩
          ((flashComponent i).view w).timers,
        listeners := ((flashComponent i).view w).listeners ++
          (if m.closeBtn then [.flashClose i] else []) } := by
  unfold initializeFlashMessage
  dsimp only
  by_cases hc : m.closeBtn = true
  · rw [if_pos hc, view_setTimeout_mine (flashComponent i) _ _ _ (by simp [flashComponent])
      (by simpa using hs), view_addEventListener_mine (flashComponent i) _ _
      (by simp [flashComponent])]
    simp [View.setTimeout, hc]
  · rw [if_neg hc, view_setTimeout_mine (flashComponent i) _ _ _ (by simp [flashComponent]) hs]
    simp [View.setTimeout, hc]

theorem view_forEach_flash (i : Nat) (ms : List FlashMessage) :
    ∀ (k : Nat) (w : World) (m : FlashMessage), Sorted w.queue.pending → k ≤ i →
      ms[i - k]? = some m →
      (flashComponent i).view (forEachFlashMessage k ms w) =
        { (flashComponent i).view w with
          timers := insertTimer ⟨0, w.queue.now + 5000, .flashExpire i⟩
            ((flashComponent i).view w).timers,
          listeners := ((flashComponent i).view w).listeners ++
            (if m.closeBtn then [.flashClose i] else []) } := by
  induction ms with
  | nil => intro k w m _ _ h; simp at h
  | cons m0 ms ih =>
    intro k w m hs hk hm
    simp only [forEachFlashMessage]
    by_cases hki : k = i
    · subst hki
      simp only [Nat.sub_self, List.getElem?_cons_zero, Option.some.injEq] at hm
      subst hm
      rw [view_forEach_other (flashComponent k) ms (k + 1) _ (by
        intro j hj
        have : k ≠ j := by omega
        simp [flashComponent, this])]
      exact view_initializeFlashMessage_mine k m0 w hs
    · have hlt : k < i := by omega
      obtain ⟨h1, h2, -, -⟩ := initializeFlashMessage_queue k m0 w hs
      have hm2 : ms[i - (k + 1)]? = some m := by
        have : i - k = (i - (k + 1)) + 1 := by omega
        rw [this, List.getElem?_cons_succ] at hm
        exact hm
      rw [ih (k + 1) _ m h1 (by omega) hm2, h2,
        view_initializeFlashMessage_other (flashComponent i) k m0 w
          (by simp [flashComponent]; omega) (by simp [flashComponent]; omega)]

theorem initializeNavigation_facts {E : Type} (C : Component E) (w : World)
    (h : C.mineListener .navToggleClick = false ∧ C.mineListener .documentClick = false ∧
      C.mineListener .resize = false) :
    C.view (initializeNavigation w) = C.view w ∧
    (initializeNavigation w).queue = w.queue ∧ (initializeNavigation w).doc = w.doc := by
  unfold initializeNavigation
  split
  · refine ⟨?_, rfl, rfl⟩
    rw [view_addEventListener_other C _ _ h.2.2, view_addEventListener_other C _ _ h.2.1,
      view_addEventListener_other C _ _ h.1]
  · exact ⟨rfl, rfl, rfl⟩

theorem initializePerformanceMonitoring_facts {E : Type} (C : Component E) (w : World)
    (h : C.mineListener .loadPerformance = false) :
    C.view (initializePerformanceMonitoring w) = C.view w ∧
    (initializePerformanceMonitoring w).queue = w.queue ∧
    (initializePerformanceMonitoring w).doc = w.doc := by
  unfold initializePerformanceMonitoring
  split
  · exact ⟨view_addEventListener_other C _ _ h, rfl, rfl⟩
  · exact ⟨rfl, rfl, rfl⟩

/-- After construction the pending timers are in order, the clock is at 0, the
document is as it was and nothing is on record. -/
theorem construct_facts (doc : Document) :
    Sorted (construct doc).queue.pending ∧ (construct doc).queue.now = 0 ∧
    (construct doc).doc = doc ∧ (construct doc).trace = [] := by
  unfold construct init initializeServiceWorker initializeFlashMessages
  have h0 : Sorted (initializeLoading
      { doc := doc, queue := TimerQueue.empty, listeners := [], trace := [] }).queue.pending := by
    simp [initializeLoading, World.setTimeout, World.addEventListener, TimerQueue.setTimeout,
      TimerQueue.empty, insertTimer, Sorted]
  have h1 : (initializeNavigation (initializeLoading
      { doc := doc, queue := TimerQueue.empty, listeners := [], trace := [] })).queue =
      (initializeLoading
      { doc := doc, queue := TimerQueue.empty, listeners := [], trace := [] }).queue := by
    unfold initializeNavigation; split <;> rfl
  have h2 := forEachFlashMessage_queue (initializeNavigation (initializeLoading
      { doc := doc, queue := TimerQueue.empty, listeners := [], trace := [] })).doc.flashMessages 0
      (initializeNavigation (initializeLoading
      { doc := doc, queue := TimerQueue.empty, listeners := [], trace := [] }))
      (by rw [h1]; exact h0)
  have h3 : ∀ w : World, (initializePerformanceMonitoring w).queue = w.queue ∧
      (initializePerformanceMonitoring w).doc = w.doc ∧
      (initializePerformanceMonitoring w).trace = w.trace := by
    intro w; unfold initializePerformanceMonitoring; split <;> exact ⟨rfl, rfl, rfl⟩
  have h4 : (initializeNavigation (initializeLoading
      { doc := doc, queue := TimerQueue.empty, listeners := [], trace := [] })).doc = doc ∧
      (initializeNavigation (initializeLoading
      { doc := doc, queue := TimerQueue.empty, listeners := [], trace := [] })).trace = [] := by
    unfold initializeNavigation; split <;> exact ⟨rfl, rfl⟩
  rw [(h3 _).1, (h3 _).2.1, (h3 _).2.2]
  refine ⟨h2.1, ?_, ?_, ?_⟩
  · rw [h2.2.1, h1]; rfl
  · rw [h2.2.2.1]; exact h4.1
  · rw [h2.2.2.2]; exact h4.2

theorem construct_queue (doc : Document) :
    Sorted (construct doc).queue.pending ∧ (construct doc).queue.now = 0 :=
  ⟨(construct_facts doc).1, (construct_facts doc).2.1⟩

/-- The spinner's view of a freshly constructed page: the element as the
document has it, the 3000 ms fallback timer, the load listener, no calls yet. -/
theorem spinner_view_construct (doc : Document) :
    spinnerComponent.view (construct doc) =
      { elem := doc.spinner, timers := [⟨0, 3000, .fallbackHide⟩],
        listeners := [.loadSpinner], trace := [] } := by
  unfold construct init initializeServiceWorker initializeFlashMessages
  rw [(initializePerformanceMonitoring_facts spinnerComponent _ rfl).1,
    view_forEach_other spinnerComponent _ 0 _ (fun j _ => ⟨rfl, rfl⟩),
    (initializeNavigation_facts spinnerComponent _ ⟨rfl, rfl, rfl⟩).1]
  simp [initializeLoading, Component.view, spinnerComponent, World.setTimeout,
    World.addEventListener, TimerQueue.setTimeout, TimerQueue.empty, insertTimer, eraseId]

/-- The view message `i` has of a freshly constructed page: the element as the
document has it, its 5000 ms expiry timer, the close listener if it has a close
button, no calls yet. -/
theorem flash_view_construct (doc : Document) (i : Nat) (m : FlashMessage)
    (hm : doc.flashMessages[i]? = some m) :
    (flashComponent i).view (construct doc) =
      { elem := some m, timers := [⟨0, 5000, .flashExpire i⟩],
        listeners := if m.closeBtn then [.flashClose i] else [], trace := [] } := by
  unfold construct init initializeServiceWorker initializeFlashMessages
  have hnav := initializeNavigation_facts (flashComponent i) (initializeLoading
      { doc := doc, queue := TimerQueue.empty, listeners := [], trace := [] }) ⟨rfl, rfl, rfl⟩
  have hload : (flashComponent i).view (initializeLoading
      { doc := doc, queue := TimerQueue.empty, listeners := [], trace := [] }) =
      { elem := some m, timers := [], listeners := [], trace := [] } := by
    simp [initializeLoading, Component.view, flashComponent, World.setTimeout,
      World.addEventListener, TimerQueue.setTimeout, TimerQueue.empty, insertTimer, hm]
  have hsorted : Sorted (initializeNavigation (initializeLoading
      { doc := doc, queue := TimerQueue.empty, listeners := [], trace := [] })).queue.pending := by
    rw [hnav.2.1]
    simp [initializeLoading, World.setTimeout, World.addEventListener, TimerQueue.setTimeout,
      TimerQueue.empty, insertTimer, Sorted]
  have hdoc : (initializeNavigation (initializeLoading
      { doc := doc, queue := TimerQueue.empty, listeners := [], trace := [] })).doc = doc := by
    rw [hnav.2.2]; rfl
  have hnow : (initializeNavigation (initializeLoading
      { doc := doc, queue := TimerQueue.empty, listeners := [], trace := [] })).queue.now = 0 := by
    rw [hnav.2.1]; rfl
  rw [(initializePerformanceMonitoring_facts (flashComponent i) _ rfl).1,
    view_forEach_flash i _ 0 _ m hsorted (Nat.zero_le _) (by rw [hdoc]; simpa using hm),
    hnav.1, hload, hnow]
  simp [insertTimer]


/-- With fuel for every pending timer, `runDue` without a limit leaves no
timer pending: every callback has run. -/
theorem runDue_none_pending : ∀ (fuel : Nat) (w : World), potential w.queue.pending ≤ fuel →
    (runDue fuel none w).queue.pending = [] := by
  intro fuel
  induction fuel with
  | zero => intro w h; exact potential_eq_zero _ (by simpa using h)
  | succ n ih =>
    intro w h
    cases hp : w.queue.pending with
    | nil => rw [runDue_nil _ _ _ hp]; exact hp
    | cons tm rest =>
      rw [runDue_cons n none w tm rest hp rfl]
      apply ih
      have := exec_potential tm.task (w.takeTimer tm.due rest)
      rw [takeTimer_pending] at this
      rw [hp, potential_cons] at h
      omega

theorem settle_pending (w : World) : (settle w).queue.pending = [] :=
  runDue_none_pending _ w (Nat.le_refl _)

theorem flash_view_after_click (doc : Document) (i : Nat) (m : FlashMessage)
    (hm : doc.flashMessages[i]? = some m) (hc : m.closeBtn = true) (ha : m.attached = true)
    (t : Nat) (ht : t < 5000) :
    (flashComponent i).view (settle (deliver [(t, .click (.flashClose i))] (construct doc))) =
      { elem := some ⟨true, some "slideOut 0.3s ease forwards", false⟩,
        timers := [],
        listeners := [.flashClose i],
        trace :=
          if t + 300 < 5000 then
            [(t, .flashAnimation i), (t, .flashSetTimeout i), (t + 300, .flashRemove i true)]
          else
            [(t, .flashAnimation i), (t, .flashSetTimeout i), (5000, .flashAnimation i),
              (5000, .flashSetTimeout i), (t + 300, .flashRemove i true),
              (5300, .flashRemove i false)] } := by
  obtain ⟨hs, hnow⟩ := construct_queue doc
  rw [view_deliver_one (flashComponent i) (flashComponent_sound i) t _ _ hs, hnow,
    flash_view_construct doc i m hm]
  obtain ⟨cb, an, att⟩ := m
  simp only at hc ha
  subst hc ha
  have h1 : ¬ (5000 ≤ t) := by omega
  by_cases h2 : t + 300 < 5000
  · simp [Component.elapse, Component.settle, Component.dispatch, Component.runDue, potential,
      Task.weight, h1, h2, flashComponent, viewSlideOut, View.record, View.setTimeout,
      insertTimer, viewAttached]
  · have h3 : ¬ (5300 < t + 300) := by omega
    simp [Component.elapse, Component.settle, Component.dispatch, Component.runDue, potential,
      Task.weight, h1, h2, h3, flashComponent, viewSlideOut, View.record, View.setTimeout,
      insertTimer, viewAttached]


theorem spinner_view_after_load (doc : Document) (sp : Spinner) (hsp : doc.spinner = some sp)
    (hatt : sp.attached = true) (L : Nat) :
    spinnerComponent.view (settle (deliver [(L, .load)] (construct doc))) =
      { elem := some ⟨true, false⟩,
        timers := [],
        listeners := [.loadSpinner],
        trace :=
          if L + 800 < 3000 then
            [(L + 500, .spinnerHide), (L + 800, .spinnerRemove true), (3000, .spinnerHide)]
          else if L + 500 < 3000 then
            [(L + 500, .spinnerHide), (3000, .spinnerHide), (L + 800, .spinnerRemove true)]
          else
            [(3000, .spinnerHide), (L + 500, .spinnerHide), (L + 800, .spinnerRemove true)] } := by
  obtain ⟨hs, hnow⟩ := construct_queue doc
  rw [view_deliver_one spinnerComponent spinnerComponent_sound L _ _ hs, hnow,
    spinner_view_construct doc, hsp]
  obtain ⟨hid, att⟩ := sp
  simp only at hatt
  subst hatt
  by_cases h1 : L + 800 < 3000
  · have a1 : ¬ (3000 ≤ L) := by omega
    have a2 : L + 500 < 3000 := by omega
    simp [Component.elapse, Component.settle, Component.dispatch, Component.runDue, potential,
      Task.weight, h1, a1, a2, spinnerComponent, View.record, View.setTimeout, insertTimer,
      Nat.add_assoc]
  · by_cases h2 : L + 500 < 3000
    · have a1 : ¬ (3000 ≤ L) := by omega
      simp [Component.elapse, Component.settle, Component.dispatch, Component.runDue, potential,
        Task.weight, h1, h2, a1, spinnerComponent, View.record, View.setTimeout, insertTimer,
        Nat.add_assoc]
    · by_cases h3 : 3000 ≤ L
      · simp [Component.elapse, Component.settle, Component.dispatch, Component.runDue, potential,
          Task.weight, h1, h2, h3, spinnerComponent, View.record, View.setTimeout, insertTimer,
          Nat.add_assoc]
      · simp [Component.elapse, Component.settle, Component.dispatch, Component.runDue, potential,
          Task.weight, h1, h2, h3, spinnerComponent, View.record, View.setTimeout, insertTimer,
          Nat.add_assoc]

theorem spinner_view_no_load (doc : Document) (sp : Spinner) (hsp : doc.spinner = some sp) :
    spinnerComponent.view (settle (construct doc)) =
      { elem := some { sp with hidden := true },
        timers := [],
        listeners := [.loadSpinner],
        trace := [(3000, .spinnerHide)] } := by
  obtain ⟨hs, -⟩ := construct_queue doc
  rw [view_settle spinnerComponent spinnerComponent_sound _ hs, spinner_view_construct doc, hsp]
  simp [Component.settle, Component.runDue, potential, Task.weight, spinnerComponent, View.record]


theorem filter_of_imp {α : Type} (p q : α → Bool) (l : List α) (h : ∀ x, p x = true → q x = true) :
    l.filter p = (l.filter q).filter p := by
  rw [List.filter_filter]
  congr 1
  funext x
  cases hp : p x
  · simp
  · simp [h x hp]

theorem record_noError (c : Call) (w : World) (h : NoError w) (hc : c.isUncaught = false) :
    NoError (w.record c) := by
  refine ⟨h.1, ?_⟩
  intro x hx
  simp only [World.record, List.mem_append, List.mem_singleton] at hx
  rcases hx with hx | rfl
  · exact h.2 x hx
  · exact hc

theorem setTimeout_noError (task : Task) (delay : Nat) (w : World) (h : NoError w) :
    NoError (w.setTimeout task delay) := h

theorem setSpinner_noError (sp : Spinner) (w : World) (h : NoError w) :
    NoError (w.setSpinner sp) := ⟨rfl, h.2⟩

theorem modifyFlash_noError (i : Nat) (f : FlashMessage → FlashMessage) (w : World)
    (h : NoError w) : NoError (w.modifyFlash i f) := h

theorem flashSlideOut_noError (i : Nat) (w : World) (h : NoError w) :
    NoError (flashSlideOut i w) := by
  unfold flashSlideOut
  exact record_noError _ _ (setTimeout_noError _ _ _
    (record_noError _ _ (modifyFlash_noError _ _ _ h) rfl)) rfl

theorem exec_noError (t : Task) (w : World) (h : NoError w) : NoError (exec t w) := by
  obtain ⟨sp, hsp⟩ := Option.isSome_iff_exists.mp h.1
  cases t with
  | loadHide =>
    simp only [exec, loadHide, spinnerClassListAddHidden, hsp]
    exact setTimeout_noError _ _ _ (record_noError _ _ (setSpinner_noError _ _ h) rfl)
  | spinnerRemove =>
    simp only [exec, spinnerRemove, hsp]
    exact record_noError _ _ (setSpinner_noError _ _ h) rfl
  | fallbackHide =>
    simp only [exec, fallbackHide, spinnerClassListAddHidden, hsp]
    exact record_noError _ _ (setSpinner_noError _ _ h) rfl
  | flashRemove i =>
    simp only [exec, flashRemove]
    exact record_noError _ _ (modifyFlash_noError _ _ _ h) rfl
  | flashExpire i =>
    simp only [exec, flashExpire]
    split
    · exact flashSlideOut_noError i w h
    · exact h

theorem runDue_noError (limit : Option Nat) : ∀ (fuel : Nat) (w : World), NoError w →
    NoError (runDue fuel limit w) := by
  intro fuel
  induction fuel with
  | zero => intro w h; exact h
  | succ n ih =>
    intro w h
    cases hp : w.queue.pending with
    | nil => rw [runDue_nil _ _ _ hp]; exact h
    | cons tm rest =>
      by_cases hd : limit.all (fun l => decide (tm.due ≤ l)) = true
      · rw [runDue_cons n limit w tm rest hp hd]
        exact ih _ (exec_noError _ _ h)
      · rw [runDue_stop _ limit w tm rest hp (by simpa using hd)]
        exact h

theorem handleAtTarget_noError (e : Event) (l : Listener) (w : World) (h : NoError w) :
    NoError (handleAtTarget e l w) := by
  unfold handleAtTarget
  split
  · exact h
  · simp only [onLoadPerformance]
    split
    · exact h
    · split
      · exact record_noError _ _ (record_noError _ _ h rfl) rfl
      · exact record_noError _ _ h rfl
  · exact h
  · split
    · exact flashSlideOut_noError _ w h
    · exact h
  · simp only [onResize]
    split <;> exact h
  · exact h

theorem handleBubbled_noError (e : Event) (l : Listener) (w : World) (h : NoError w) :
    NoError (handleBubbled e l w) := by
  unfold handleBubbled
  split
  · simp only [onDocumentClick]
    split
    · exact h
    · exact h
  · exact h

theorem foldl_noError (f : Listener → World → World)
    (hf : ∀ l w, NoError w → NoError (f l w)) :
    ∀ (ls : List Listener) (w : World), NoError w → NoError (ls.foldl (fun a l => f l a) w) := by
  intro ls
  induction ls with
  | nil => intro w h; exact h
  | cons l ls ih => intro w h; exact ih _ (hf l w h)

theorem deliver_noError : ∀ (events : List (Nat × Event)) (w : World), NoError w →
    NoError (deliver events w) := by
  intro events
  induction events with
  | nil => intro w h; exact h
  | cons p ps ih =>
    intro w h
    obtain ⟨gap, e⟩ := p
    simp only [deliver]
    apply ih
    unfold dispatch
    dsimp only
    have h1 : NoError (elapse gap w) := runDue_noError _ _ _ h
    exact foldl_noError _ (handleBubbled_noError e) _ _
      (foldl_noError _ (handleAtTarget_noError e) _ _ h1)

/-- With the spinner element present no callback of `VendorApp` ends with an
error, whatever the rest of the document and whatever events arrive. -/
theorem no_uncaught_with_spinner (doc : Document) (events : List (Nat × Event))
    (h : doc.spinner.isSome = true) :
    (settle (deliver events (construct doc))).trace.filter (fun c => Call.isUncaught c.2) = [] := by
  have h0 : NoError (construct doc) := by
    obtain ⟨-, -, hd, ht⟩ := construct_facts doc
    exact ⟨by rw [hd]; exact h, by rw [ht]; simp⟩
  have h1 := (runDue_noError none (fuelFor (deliver events (construct doc))) _
    (deliver_noError events _ h0)).2
  exact List.filter_eq_nil_iff.mpr (fun c hc => by simp [h1 c hc])

theorem spinner_view_trace (w : World) :
    (spinnerComponent.view w).trace = w.trace.filter (fun c => Call.onSpinner c.2) := rfl

theorem spinner_view_elem (w : World) : (spinnerComponent.view w).elem = w.doc.spinner := rfl

/-- C9 (the code departs from the claim). On a page that has everything except
the element `loading-spinner`, construction succeeds but the timer callbacks of
`initializeLoading` end with a `TypeError`: the one set by the load handler
(load at 100 ms, so at 600 ms) and the 3000 ms fallback. -/
theorem missing_spinner_raises :
    (settle (deliver
        [(100, .load), (50, .click .navToggle), (50, .click (.flashClose 0)),
          (10, .resize 1024), (10, .click .elsewhere)]
        (construct pageWithoutSpinner))).trace.filter (fun c => Call.isUncaught c.2) =
      [(600, .uncaught nullClassList), (3000, .uncaught nullClassList)] ∧
    (settle (construct pageWithoutSpinner)).trace.filter (fun c => Call.isUncaught c.2) =
      [(3000, .uncaught nullClassList)] := by
  decide

/-- C10 (counterexample). On a page with the spinner: when the load event never
fires the spinner is marked hidden at 3000 ms and is never removed; when it
fires at 3000 ms the spinner is first marked hidden at 3000 ms and removed at
3800 ms, not at 3300 ms. -/
theorem spinner_not_removed_after_fallback :
    (afterLoad samplePage none).trace.filter (fun c => Call.onSpinner c.2) =
      [(3000, .spinnerHide)] ∧
    (afterLoad samplePage none).doc.spinner = some { hidden := true, attached := true } ∧
    (afterLoad samplePage none).queue.pending = [] ∧
    (afterLoad samplePage (some 3000)).trace.filter (fun c => Call.onSpinner c.2) =
      [(3000, .spinnerHide), (3500, .spinnerHide), (3800, .spinnerRemove true)] := by
  decide

/-- C10 (amended). On a page with the spinner attached, when the load event
fires `L` ms after construction the spinner is first marked hidden at
`min (L + 500) 3000`, and it is removed from the document exactly once, at
`L + 800`: 300 ms after the hidden-marking of the load path, which is 300 ms
after the first hidden-marking exactly when `L ≤ 2500`. When the load event
never fires the spinner is marked hidden at 3000 and is not removed. Marking a
hidden spinner hidden again leaves the document unchanged. -/
theorem spinner_lifecycle (doc : Document) (sp : Spinner) (L : Nat)
    (hsp : doc.spinner = some sp) (hatt : sp.attached = true) :
    ((afterLoad doc (some L)).trace.filter (fun c => Call.onSpinner c.2)).head? =
      some (min (L + 500) 3000, .spinnerHide) ∧
    (afterLoad doc (some L)).trace.filter (fun c => Call.isSpinnerRemove c.2) =
      [(L + 800, .spinnerRemove true)] ∧
    (L + 800 = min (L + 500) 3000 + 300 ↔ L ≤ 2500) ∧
    (afterLoad doc (some L)).doc.spinner = some { hidden := true, attached := false } ∧
    (afterLoad doc (some L)).queue.pending = [] ∧
    (afterLoad doc none).trace.filter (fun c => Call.onSpinner c.2) = [(3000, .spinnerHide)] ∧
    (afterLoad doc none).doc.spinner = some { hidden := true, attached := true } ∧
    (afterLoad doc none).queue.pending = [] ∧
    (∀ (w : World) (s : Spinner), w.doc.spinner = some s → s.hidden = true →
      (fallbackHide w).doc = w.doc ∧ (loadHide w).doc = w.doc) := by
  have hv := spinner_view_after_load doc sp hsp hatt L
  have hn := spinner_view_no_load doc sp hsp
  have e1 : afterLoad doc (some L) = settle (deliver [(L, .load)] (construct doc)) := rfl
  have e0 : afterLoad doc none = settle (construct doc) := rfl
  rw [e1, e0]
  have hrem : ∀ w : World, w.trace.filter (fun c => Call.isSpinnerRemove c.2) =
      (spinnerComponent.view w).trace.filter (fun c => Call.isSpinnerRemove c.2) := by
    intro w
    rw [spinner_view_trace]
    exact filter_of_imp _ _ _ (by
      intro x hx
      cases hc : x.2 <;> simp [hc, Call.isSpinnerRemove, Call.onSpinner] at hx ⊢)
  rw [hrem, ← spinner_view_trace, ← spinner_view_elem, ← spinner_view_trace, ← spinner_view_elem,
    hv, hn]
  refine ⟨?_, ?_, ?_, rfl, settle_pending _, rfl, ?_, settle_pending _, ?_⟩
  · by_cases h1 : L + 800 < 3000
    · have : min (L + 500) 3000 = L + 500 := by omega
      simp [h1, this]
    · by_cases h2 : L + 500 < 3000
      · have : min (L + 500) 3000 = L + 500 := by omega
        simp [h1, h2, this]
      · have : min (L + 500) 3000 = 3000 := by omega
        simp [h1, h2, this]
  · by_cases h1 : L + 800 < 3000
    · simp [h1, Call.isSpinnerRemove]
    · by_cases h2 : L + 500 < 3000
      · simp [h1, h2, Call.isSpinnerRemove]
      · simp [h1, h2, Call.isSpinnerRemove]
  · omega
  · simp [hatt]
  · intro w s hs hh
    obtain ⟨hid, att⟩ := s
    simp only at hh
    subst hh
    obtain ⟨d, q, ls, tr⟩ := w
    obtain ⟨dsp, nt, nm, fm, pf⟩ := d
    simp only at hs
    subst hs
    simp [fallbackHide, loadHide, spinnerClassListAddHidden, World.record, World.setSpinner,
      World.setTimeout]

/-- Witness for C10: the sample page with the load event at 1000 ms. -/
theorem spinner_lifecycle_witness :
    (samplePage.spinner = some { hidden := false, attached := true } ∧
      (({ hidden := false, attached := true } : Spinner).attached = true)) ∧
    ((afterLoad samplePage (some 1000)).trace.filter (fun c => Call.onSpinner c.2)).head? =
      some (1500, .spinnerHide) ∧
    (afterLoad samplePage (some 1000)).trace.filter (fun c => Call.isSpinnerRemove c.2) =
      [(1800, .spinnerRemove true)] :=
  have h := spinner_lifecycle samplePage { hidden := false, attached := true } 1000 rfl rfl
  ⟨⟨rfl, rfl⟩, h.1, h.2.1⟩


theorem flash_view_trace (i : Nat) (w : World) :
    ((flashComponent i).view w).trace = w.trace.filter (fun c => Call.onFlash i c.2) := rfl

theorem flash_view_elem (i : Nat) (w : World) :
    ((flashComponent i).view w).elem = w.doc.flashMessages[i]? := rfl

/-- C8 (counterexample). A click on the close button at 4800 ms: when the
expiry timer fires at 5000 ms the message is still attached (its removal is due
at 5100 ms), so the callback sets the exit animation again and schedules a
second removal, which at 5300 ms finds the message already detached. -/
theorem flash_expiry_repeats_after_late_close :
    (afterClose samplePage 0 4800).trace.filter (fun c => Call.onFlash 0 c.2) =
      [(4800, .flashAnimation 0), (4800, .flashSetTimeout 0), (5000, .flashAnimation 0),
        (5000, .flashSetTimeout 0), (5100, .flashRemove 0 true), (5300, .flashRemove 0 false)] := by
  decide

/-- C8 (amended). For a flash message with a close button and one click on it
`t` ms after construction, `t < 5000`: the message is detached from the
document exactly once, at `t + 300`, and ends detached with no timer pending.
When the removal has run before the expiry timer (`t + 300 < 5000`) the expiry
callback does nothing: the record of the message holds the click's animation,
the click's `setTimeout` and the one removal. For `5000 ≤ t + 300` it holds in
addition the animation and `setTimeout` of the expiry callback and a second
`remove()` that detaches nothing. The expiry callback never raises. -/
theorem flash_close_detaches_once (doc : Document) (i : Nat) (m : FlashMessage) (t : Nat)
    (hm : doc.flashMessages[i]? = some m) (hc : m.closeBtn = true) (ha : m.attached = true)
    (ht : t < 5000) :
    (afterClose doc i t).trace.filter (fun c => c.2 == Call.flashRemove i true) =
      [(t + 300, .flashRemove i true)] ∧
    (afterClose doc i t).doc.flashMessages[i]? =
      some { closeBtn := true, animation := some "slideOut 0.3s ease forwards",
             attached := false } ∧
    (afterClose doc i t).queue.pending = [] ∧
    (t + 300 < 5000 →
      (afterClose doc i t).trace.filter (fun c => Call.onFlash i c.2) =
        [(t, .flashAnimation i), (t, .flashSetTimeout i), (t + 300, .flashRemove i true)]) ∧
    (5000 ≤ t + 300 →
      (afterClose doc i t).trace.filter (fun c => Call.onFlash i c.2) =
        [(t, .flashAnimation i), (t, .flashSetTimeout i), (5000, .flashAnimation i),
          (5000, .flashSetTimeout i), (t + 300, .flashRemove i true),
          (5300, .flashRemove i false)]) ∧
    (∀ w : World, (flashExpire i w).trace.filter (fun c => Call.isUncaught c.2) =
      w.trace.filter (fun c => Call.isUncaught c.2)) := by
  have hv := flash_view_after_click doc i m hm hc ha t ht
  have e1 : afterClose doc i t =
      settle (deliver [(t, .click (.flashClose i))] (construct doc)) := rfl
  rw [e1]
  have hrem : ∀ w : World, w.trace.filter (fun c => c.2 == Call.flashRemove i true) =
      ((flashComponent i).view w).trace.filter (fun c => c.2 == Call.flashRemove i true) := by
    intro w
    rw [flash_view_trace]
    exact filter_of_imp _ _ _ (by
      intro x hx
      have : x.2 = Call.flashRemove i true := by simpa using hx
      simp [this, Call.onFlash])
  rw [hrem, ← flash_view_trace, ← flash_view_elem, hv]
  refine ⟨?_, rfl, settle_pending _, ?_, ?_, ?_⟩
  · by_cases h2 : t + 300 < 5000
    · simp [h2]
    · simp [h2]
  · intro h2
    simp [h2]
  · intro h2
    have : ¬ (t + 300 < 5000) := by omega
    simp [this]
  · intro w
    unfold flashExpire
    split
    · simp [flashSlideOut, World.record, World.setTimeout, World.modifyFlash, Call.isUncaught]
    · rfl

/-- Witness for C8: the sample page with the click at 1000 ms. -/
theorem flash_close_detaches_once_witness :
    (samplePage.flashMessages[0]? = some { closeBtn := true, animation := none, attached := true } ∧
      ({ closeBtn := true, animation := none, attached := true } : FlashMessage).closeBtn = true ∧
      ({ closeBtn := true, animation := none, attached := true } : FlashMessage).attached = true ∧
      1000 < 5000) ∧
    (afterClose samplePage 0 1000).trace.filter (fun c => c.2 == Call.flashRemove 0 true) =
      [(1300, .flashRemove 0 true)] ∧
    (afterClose samplePage 0 1000).trace.filter (fun c => Call.onFlash 0 c.2) =
      [(1000, .flashAnimation 0), (1000, .flashSetTimeout 0), (1300, .flashRemove 0 true)] :=
  have h := flash_close_detaches_once samplePage 0
    { closeBtn := true, animation := none, attached := true } 1000 rfl rfl rfl (by decide)
  ⟨⟨rfl, rfl, rfl, by decide⟩, h.1, h.2.2.2.1 (by decide)⟩

end VendorApp
